import Mathlib

/-!
# Verification of the voice-agent-carnival resilient voice proxy

Shallow embedding, in Lean 4, of the parts of the repository that the
specification's claims talk about:

* `src/server.js` — the `WebSocketSessionHandler` realtime session: the
  `audio_input` / `commit_audio` client-message paths and the
  `response.audio.delta` / `response.audio.done` provider-message paths,
  together with the base64 / 16-bit-PCM conversions they perform.
* `src/src/utils/error-handler.js` — the `VoiceErrorHandler` router:
  `executeWithFallback`, the per-provider circuit breakers
  (`isProviderAvailable`, `updateCircuitBreaker`, `recordSuccess`) and the
  per-provider statistics (`recordRequest`, `recordSuccess`, `recordError`),
  and the error classifier `createVoiceError`.

Machine integers are modelled as `Nat`/`Int` with explicit `% 2^w` where JS
performs wrapping; JS `Date.now()` readings are supplied by an explicit time
oracle; the nondeterministic outcome of each `operation()` invocation is
supplied by an explicit script.
-/

namespace VoiceAgent

/-! ## Base64, as produced by `Buffer.toString('base64')` and consumed by
`Buffer.from(str, 'base64')` (Node semantics, used in `src/server.js`). -/

/-- The base64 digit for a sextet value `n < 64`
(`A`–`Z`, `a`–`z`, `0`–`9`, `+`, `/`). -/
def sextetToChar (n : Nat) : Char :=
  if n < 26 then Char.ofNat (65 + n)
  else if n < 52 then Char.ofNat (97 + (n - 26))
  else if n < 62 then Char.ofNat (48 + (n - 52))
  else if n = 62 then '+'
  else '/'

/-- The sextet value of a base64 digit, `none` for a non-alphabet character
(including `=` and whitespace). -/
def charToSextet (c : Char) : Option Nat :=
  if 'A' ≤ c ∧ c ≤ 'Z' then some (c.toNat - 65)
  else if 'a' ≤ c ∧ c ≤ 'z' then some (c.toNat - 71)
  else if '0' ≤ c ∧ c ≤ '9' then some (c.toNat + 4)
  else if c = '+' then some 62
  else if c = '/' then some 63
  else none

/-- Standard padded base64 encoding of a byte list (each byte `< 256`),
as produced by Node's `Buffer.prototype.toString('base64')`:
3 bytes become 4 digits, a 1-byte tail becomes 2 digits and `==`,
a 2-byte tail becomes 3 digits and `=`. -/
def b64EncodeChunks : List Nat → List Char
  | [] => []
  | [b1] =>
      [sextetToChar (b1 / 4), sextetToChar (b1 % 4 * 16), '=', '=']
  | [b1, b2] =>
      [sextetToChar (b1 / 4), sextetToChar (b1 % 4 * 16 + b2 / 16),
       sextetToChar (b2 % 16 * 4), '=']
  | b1 :: b2 :: b3 :: rest =>
      sextetToChar (b1 / 4) :: sextetToChar (b1 % 4 * 16 + b2 / 16) ::
      sextetToChar (b2 % 16 * 4 + b3 / 64) :: sextetToChar (b3 % 64) ::
      b64EncodeChunks rest

/-- The sextet stream Node's base64 decoder extracts from a string:
non-alphabet characters (e.g. whitespace) are skipped, and decoding stops
at the first `=` (Node `base64_decode_slow`: a character that is not a
base64 digit is skipped unless it is `=`, which terminates decoding). -/
def nodeB64Sextets : List Char → List Nat
  | [] => []
  | c :: cs =>
      match charToSextet c with
      | some v => v :: nodeB64Sextets cs
      | none => if c = '=' then [] else nodeB64Sextets cs

/-- Regrouping a sextet stream into bytes: 4 sextets give 3 bytes; a tail of
2 (resp. 3) sextets gives 1 (resp. 2) bytes; a lone trailing sextet is
dropped. -/
def sextetsToBytes : List Nat → List Nat
  | a :: b :: c :: d :: rest =>
      (a * 4 + b / 16) :: (b % 16 * 16 + c / 4) :: (c % 4 * 64 + d) ::
      sextetsToBytes rest
  | [a, b] => [a * 4 + b / 16]
  | [a, b, c] => [a * 4 + b / 16, b % 16 * 16 + c / 4]
  | _ => []

/-- `Buffer.from(s, 'base64')` as a byte list (Node semantics). -/
def nodeB64Decode (s : String) : List Nat :=
  sextetsToBytes (nodeB64Sextets s.data)

/-! ## 16-bit little-endian PCM samples (`Int16Array` ↔ bytes). -/

/-- JS `ToInt16` wrapping composed with the unsigned 16-bit view: the two
little-endian bytes an `Int16Array` stores for the JS number `s` encode
`s mod 2^16`. -/
def sampleToU16 (s : Int) : Nat := (s.emod 65536).toNat

/-- The little-endian byte pair an `Int16Array` element contributes to its
backing buffer. -/
def sampleToBytes (s : Int) : List Nat :=
  [sampleToU16 s % 256, sampleToU16 s / 256]

/-- Reading an unsigned 16-bit value back as a signed `Int16Array` element. -/
def u16ToInt16 (u : Nat) : Int :=
  if u < 32768 then (u : Int) else (u : Int) - 65536

/-- `Array.from(new Int16Array(buffer))` over an `ArrayBuffer` holding
exactly the given bytes: consecutive little-endian byte pairs become
signed 16-bit samples.  An `ArrayBuffer` whose byte length is odd cannot
back an `Int16Array` (the constructor raises `RangeError`), modelled as
`none`.  This is only the exact-size-buffer case; the full model of the
`.buffer` access at `src/server.js:428`, including Node's allocation
pool, is `int16ViewOfBuffer` below. -/
def bytesToSamplesOpt : List Nat → Option (List Int)
  | [] => some []
  | lo :: hi :: rest =>
      (bytesToSamplesOpt rest).map (fun tl => u16ToInt16 (lo + 256 * hi) :: tl)
  | [_] => none

/-- `Buffer.poolSize >>> 1`: `Buffer.from(string, encoding)` results
smaller than this are carved out of Node's shared 8192-byte allocation
pool. -/
def bufferPoolHalf : Nat := 4096

/-- `Array.from(new Int16Array(audioData.buffer))` at the audio-done
boundary (`src/server.js:428`).  `audioData.buffer` is the *backing*
`ArrayBuffer`, not the decoded bytes: when the decoded payload is smaller
than half `Buffer.poolSize` (4096 bytes) the `Buffer` is pooled, the
backing store is the whole 8192-byte pool, and the view is the pool's
4096 samples — content unrelated to the decode, supplied here by the
`pool` oracle (the construction succeeds even when the decoded byte count
is odd, since the pool's size is even).  At 4096 bytes or more the
`Buffer` owns an exact-size `ArrayBuffer` — exact because a decode that
consumes its whole string, as any decode of the session's own trailing-
padded encoding does, fills Node's size estimate precisely — and the view
is the decoded bytes as little-endian 16-bit samples, with `RangeError`
(`none`) for an odd byte count. -/
def int16ViewOfBuffer (pool : List Int) (bytes : List Nat) :
    Option (List Int) :=
  if bytes.length < bufferPoolHalf then some pool
  else bytesToSamplesOpt bytes

/-- `src/server.js` `handleClientMessage`, `audio_input` case:
`Buffer.from(new Int16Array(message.data).buffer).toString('base64')` —
each JS number is wrapped to 16 bits, laid out little-endian, and the byte
buffer is base64-encoded. -/
def int16ArrayToB64 (data : List Int) : String :=
  String.mk (b64EncodeChunks (data.map sampleToBytes).flatten)

/-! ## The realtime session (`WebSocketSessionHandler` in `src/server.js`). -/

/-- The session state the modelled message paths read and write:
`isConnectedToOpenAI` and the two socket-open flags consulted by
`sendToOpenAI` / `sendToClient`, plus the pending provider-audio fragment
buffer `audioBuffer`. -/
structure Session where
  isConnectedToOpenAI : Bool
  openaiWsOpen : Bool
  clientWsOpen : Bool
  audioBuffer : List String
deriving DecidableEq, Repr

/-- Messages the session sends upstream (`sendToOpenAI`), named after their
`type` fields: `input_audio_buffer.append`, `input_audio_buffer.commit`,
`response.create`. -/
inductive ProviderMsg
  | appendAudio (audio : String)
  | commitBuffer
  | responseCreate
deriving DecidableEq, Repr

/-- Messages the session sends to the client (`sendToClient`); only the
constructors the claims need are modelled, the rest are never produced by
the modelled paths. -/
inductive ClientOut
  | audioOutput (data : List Int)
  | speechStarted
  | speechStopped
  | responseComplete
deriving DecidableEq, Repr

/-- Client-to-proxy messages (`handleClientMessage`).  `audio_input` carries
`message.data`, which the code tests for truthiness — `none` models a
missing/absent `data` field. -/
inductive ClientMsg
  | audioInput (data : Option (List Int))
  | commitAudio
  | unknown
deriving DecidableEq, Repr

/-- `sendToOpenAI`: the message is sent only when the upstream socket is
open. -/
def sendToOpenAI (s : Session) (m : ProviderMsg) : List ProviderMsg :=
  if s.openaiWsOpen then [m] else []

/-- `sendToClient`: the message is sent only when the client socket is
open. -/
def sendToClient (s : Session) (m : ClientOut) : List ClientOut :=
  if s.clientWsOpen then [m] else []

/-- `src/server.js` `handleClientMessage`: returns the updated session, the
messages forwarded to the provider, and the messages sent to the client
(the modelled paths never send anything to the client, which the result
type makes explicit). -/
def handleClientMessage (s : Session) :
    ClientMsg → Session × List ProviderMsg × List ClientOut
  | .audioInput (some data) =>
      if s.isConnectedToOpenAI then
        (s, sendToOpenAI s (.appendAudio (int16ArrayToB64 data)), [])
      else (s, [], [])
  | .audioInput none => (s, [], [])
  | .commitAudio =>
      if s.isConnectedToOpenAI then
        (s, sendToOpenAI s .commitBuffer ++ sendToOpenAI s .responseCreate, [])
      else (s, [], [])
  | .unknown => (s, [], [])

/-- Provider-to-proxy messages (`handleOpenAIMessage`); only the audio-path
cases are modelled, everything else is `otherEvt`. -/
inductive OpenAIMsg
  | audioDelta (delta : Option String)
  | audioDone
  | responseDone
  | otherEvt
deriving DecidableEq, Repr

/-- `src/server.js` `handleOpenAIMessage`, audio cases.

* `response.audio.delta`: a present `delta` is pushed onto `audioBuffer`.
* `response.audio.done`: if the buffer is non-empty, the fragments are
  joined (`audioBuffer.join('')`), base64-decoded
  (`Buffer.from(completeAudio, 'base64')`) and viewed through
  `new Int16Array(audioData.buffer)` — `int16ViewOfBuffer`, with the
  `pool` oracle supplying the 4096 pool samples seen whenever the decoded
  payload is under 4096 bytes; one `audio_output` message carrying that
  view is emitted and the buffer is cleared.  Only when the view raises
  `RangeError` (unpooled buffer of odd byte length) does the enclosing
  message handler catch the throw before line 435: nothing is emitted and
  the buffer is kept. -/
def handleOpenAIMessage (pool : List Int) (s : Session) :
    OpenAIMsg → Session × List ClientOut
  | .audioDelta (some d) => ({ s with audioBuffer := s.audioBuffer ++ [d] }, [])
  | .audioDelta none => (s, [])
  | .audioDone =>
      if s.audioBuffer.isEmpty then (s, [])
      else
        match int16ViewOfBuffer pool
            (nodeB64Decode (String.join s.audioBuffer)) with
        | some samples =>
            ({ s with audioBuffer := [] }, sendToClient s (.audioOutput samples))
        | none => (s, [])
  | .responseDone => (s, sendToClient s .responseComplete)
  | .otherEvt => (s, [])

/-- Feeding a list of provider messages through the session handler in
order, collecting the client output. -/
def runOpenAIMsgs (pool : List Int) (s : Session) :
    List OpenAIMsg → Session × List ClientOut
  | [] => (s, [])
  | m :: rest =>
      let (s', out) := handleOpenAIMessage pool s m
      let (s'', out') := runOpenAIMsgs pool s' rest
      (s'', out ++ out')

/-! ## Circuit breakers (`src/src/utils/error-handler.js`). -/

/-- Breaker state strings `'CLOSED' | 'OPEN' | 'HALF_OPEN'`. -/
inductive CBState
  | closed
  | opened
  | halfOpen
deriving DecidableEq, Repr

/-- One entry of the `circuitBreakers` map.  Timestamps are `Date.now()`
values (milliseconds, modelled as `Nat`); `none` models `null`. -/
structure Breaker where
  state : CBState
  failures : Nat
  lastFailureTime : Option Nat
  nextAttemptTime : Option Nat
deriving DecidableEq, Repr

/-- The breaker installed by `initializeCircuitBreakers`. -/
def initialBreaker : Breaker :=
  { state := .closed, failures := 0, lastFailureTime := none,
    nextAttemptTime := none }

/-- `isProviderAvailable`, restricted to one breaker: the availability
answer and the (possibly mutated) breaker.  In the `OPEN` case the JS
comparison `Date.now() >= breaker.nextAttemptTime` coerces a `null`
`nextAttemptTime` to `0`; when the cooldown has elapsed the breaker is
mutated to `HALF_OPEN`. -/
def checkAvail (now : Nat) (b : Breaker) : Bool × Breaker :=
  match b.state with
  | .closed => (true, b)
  | .opened =>
      if b.nextAttemptTime.getD 0 ≤ now then
        (true, { b with state := .halfOpen })
      else (false, b)
  | .halfOpen => (true, b)

/-- `updateCircuitBreaker`: every failure increments `failures` and stamps
`lastFailureTime`; reaching the threshold while `CLOSED`, or any failure
while `HALF_OPEN`, moves the breaker to `OPEN` with a fresh cooldown expiry
`nextAttemptTime = now + circuitBreakerTimeout`. -/
def updateCircuitBreaker (now threshold cbTimeout : Nat) (b : Breaker) :
    Breaker :=
  let b := { b with failures := b.failures + 1, lastFailureTime := some now }
  if threshold ≤ b.failures ∧ b.state = .closed then
    { b with state := .opened, nextAttemptTime := some (now + cbTimeout) }
  else if b.state = .halfOpen then
    { b with state := .opened, nextAttemptTime := some (now + cbTimeout) }
  else b

/-- The breaker half of `recordSuccess`: reset `failures` to `0` and close a
`HALF_OPEN` breaker. -/
def recordSuccessBreaker (b : Breaker) : Breaker :=
  let b := { b with failures := 0 }
  if b.state = .halfOpen then { b with state := .closed } else b

/-! ## Per-provider statistics (`errorStats`). -/

/-- One entry of the `errorStats` map.  `errorRate` and `avgResponseTime`
are JS numbers holding exact small ratios, modelled as `Rat`;
`lastError` keeps the recorded `(message, type)` pair. -/
structure Stats where
  totalRequests : Nat
  totalErrors : Nat
  errorRate : Rat
  lastError : Option (String × String)
  errorTypes : List (String × Nat)
  avgResponseTime : Rat
deriving DecidableEq, Repr

/-- The statistics installed by `initializeCircuitBreakers`. -/
def initialStats : Stats :=
  { totalRequests := 0, totalErrors := 0, errorRate := 0, lastError := none,
    errorTypes := [], avgResponseTime := 0 }

/-- `recordRequest`: count the attempt. -/
def recordRequest (s : Stats) : Stats :=
  { s with totalRequests := s.totalRequests + 1 }

/-- The statistics half of `recordSuccess`: a second `totalRequests`
increment, the running response-time average, and the recomputed error
rate (using the already-incremented `totalRequests`). -/
def recordSuccessStats (responseTime : Rat) (s : Stats) : Stats :=
  let s := { s with totalRequests := s.totalRequests + 1 }
  { s with
    avgResponseTime := (s.avgResponseTime + responseTime) / 2,
    errorRate := (s.totalErrors : Rat) / (s.totalRequests : Rat) }

/-! ## Voice errors (`VoiceError`, `createVoiceError`). -/

/-- The metadata object attached to a `VoiceError`; absent fields are
`none`. -/
structure ErrorMeta where
  provider : Option String := none
  attempt : Option Nat := none
  isRetryable : Option Bool := none
  circuitBreaker : Bool := false
  timeoutMs : Option Nat := none
deriving DecidableEq, Repr

/-- `VoiceError` (message, `type` string, metadata). -/
structure VoiceError where
  message : String
  type : String
  meta : ErrorMeta
deriving DecidableEq, Repr

/-- `this.isRetryable = metadata.isRetryable !== false`. -/
def VoiceError.retryable (e : VoiceError) : Bool :=
  e.meta.isRetryable ≠ some false

/-- JS `String.prototype.includes`: substring test. -/
def strIncludes (s pat : String) : Bool :=
  s.data.tails.any fun t => pat.data.isPrefixOf t

/-- The classification chain of `createVoiceError`: the error type string
and the `isRetryable` flag inferred from the raw message. -/
def classifyError (msg : String) : String × Bool :=
  if strIncludes msg "timeout" || strIncludes msg "TIMEOUT" then
    ("TIMEOUT", true)
  else if strIncludes msg "401" || strIncludes msg "unauthorized" then
    ("AUTHENTICATION_ERROR", false)
  else if strIncludes msg "403" || strIncludes msg "forbidden" then
    ("AUTHORIZATION_ERROR", false)
  else if strIncludes msg "404" || strIncludes msg "not found" then
    ("NOT_FOUND", false)
  else if strIncludes msg "429" || strIncludes msg "rate limit" then
    ("RATE_LIMIT_ERROR", true)
  else if strIncludes msg "500" || strIncludes msg "502" ||
      strIncludes msg "503" then
    ("SERVER_ERROR", true)
  else if strIncludes msg "ENOTFOUND" || strIncludes msg "ECONNREFUSED" then
    ("NETWORK_ERROR", true)
  else if strIncludes msg "JSON" || strIncludes msg "parse" then
    ("PARSE_ERROR", true)
  else ("UNKNOWN_ERROR", true)

/-- A raw error reaching `createVoiceError`: either a plain JS `Error` (only
its message matters to the classifier) or an error that is already a
`VoiceError` (the `instanceof` fast path returns it unchanged). -/
inductive RawError
  | jsError (msg : String)
  | voiceErr (e : VoiceError)
deriving DecidableEq, Repr

/-- `createVoiceError(error, provider, attempt)`. -/
def createVoiceError (err : RawError) (provider : String) (attempt : Nat) :
    VoiceError :=
  match err with
  | .voiceErr e => e
  | .jsError msg =>
      let c := classifyError msg
      { message := msg, type := c.1,
        meta := { provider := some provider, attempt := some attempt,
                  isRetryable := some c.2 } }

/-- The `TIMEOUT` `VoiceError` synthesized by `executeWithTimeout`. -/
def timeoutVoiceError (timeoutMs : Nat) : VoiceError :=
  { message := "Operation timed out", type := "TIMEOUT",
    meta := { timeoutMs := some timeoutMs } }

/-- `error.type || 'UNKNOWN'` (an empty type string is falsy). -/
def errorTypeKey (e : VoiceError) : String :=
  if e.type = "" then "UNKNOWN" else e.type

/-- Bump a counter in an association list (the `errorTypes` object). -/
def bumpAssoc : List (String × Nat) → String → List (String × Nat)
  | [], k => [(k, 1)]
  | (k', v) :: rest, k =>
      if k' = k then (k', v + 1) :: rest else (k', v) :: bumpAssoc rest k

/-- `recordError`: count the error, remember it, recompute the error rate
from the current counters, and bump the per-type histogram. -/
def recordErrorStats (e : VoiceError) (s : Stats) : Stats :=
  let s := { s with totalErrors := s.totalErrors + 1,
                    lastError := some (e.message, e.type) }
  { s with
    errorRate := (s.totalErrors : Rat) / (s.totalRequests : Rat),
    errorTypes := bumpAssoc s.errorTypes (errorTypeKey e) }

/-! ## The handler state and `executeWithFallback`. -/

/-- Association-list lookup (`Map.prototype.get`; `none` = `undefined`). -/
def getAssoc {α : Type} : List (String × α) → String → Option α
  | [], _ => none
  | (k', v) :: rest, k => if k' = k then some v else getAssoc rest k

/-- In-place update of the entry under a key; a no-op when the key is
absent (mirroring the `if (breaker) { ... }` guards around every mutation
of a looked-up map entry). -/
def mapAssoc {α : Type} (f : α → α) (k : String) :
    List (String × α) → List (String × α) :=
  List.map fun e => if e.1 = k then (e.1, f e.2) else e

/-- The `VoiceErrorHandler` fields the modelled operations touch: the two
maps and the breaker configuration. -/
structure Handler where
  breakers : List (String × Breaker)
  stats : List (String × Stats)
  threshold : Nat
  cbTimeout : Nat
deriving DecidableEq, Repr

/-- Mutate one provider's breaker (no-op for unknown providers). -/
def updateBreakerAt (h : Handler) (p : String) (f : Breaker → Breaker) :
    Handler :=
  { h with breakers := mapAssoc f p h.breakers }

/-- Mutate one provider's statistics (no-op for unknown providers). -/
def updateStatsAt (h : Handler) (p : String) (f : Stats → Stats) : Handler :=
  { h with stats := mapAssoc f p h.stats }

/-- `isProviderAvailable(provider)` on the handler: `true` for providers
with no breaker entry; otherwise `checkAvail`, writing back the mutation in
the one case that mutates (`OPEN` with elapsed cooldown → `HALF_OPEN`). -/
def checkAvailH (now : Nat) (p : String) (h : Handler) : Bool × Handler :=
  match getAssoc h.breakers p with
  | none => (true, h)
  | some b =>
      match b.state with
      | .closed => (true, h)
      | .opened =>
          if b.nextAttemptTime.getD 0 ≤ now then
            (true, updateBreakerAt h p fun bb => { bb with state := .halfOpen })
          else (false, h)
      | .halfOpen => (true, h)

/-- The outcome of one `operation()` invocation under `executeWithTimeout`:
a resolved value, a rejection with a plain error message, or a timeout. -/
inductive Outcome
  | ok (v : Nat)
  | err (msg : String)
  | timeout
deriving DecidableEq, Repr

/-- The raw error carried by a failed outcome (`ok` never reaches error
handling; the placeholder keeps the function total). -/
def Outcome.toRaw (timeoutMs : Nat) : Outcome → RawError
  | .ok _ => .jsError ""
  | .err m => .jsError m
  | .timeout => .voiceErr (timeoutVoiceError timeoutMs)

/-- `true` exactly on successful outcomes. -/
def Outcome.isOk : Outcome → Bool
  | .ok _ => true
  | _ => false

/-- The `config` argument of `executeWithFallback` (the `timeout` field
only matters through `Outcome.timeout` and the synthesized error's
metadata). -/
structure RouterConfig where
  provider : String
  fallbackProviders : List String := []
  retries : Nat := 3
  timeoutMs : Nat := 30000
deriving DecidableEq, Repr

/-- `VoiceError.toJSON`, flattened to the fields the code ever reads. -/
structure ErrJson where
  message : String
  type : String
  meta : ErrorMeta
  isRetryable : Bool
deriving DecidableEq, Repr

/-- The `toJSON` projection. -/
def VoiceError.toJson (e : VoiceError) : ErrJson :=
  { message := e.message, type := e.type, meta := e.meta,
    isRetryable := e.retryable }

/-- The terminal `ALL_PROVIDERS_FAILED` `VoiceError` and its metadata. -/
structure TerminalError where
  message : String
  provider : String
  fallbackProviders : List String
  attempts : Nat
  lastError : Option ErrJson
deriving DecidableEq, Repr

/-- The result of `executeWithFallback`: a resolved value, the immediate
`PROVIDER_UNAVAILABLE` throw, or the terminal `ALL_PROVIDERS_FAILED`
throw. -/
inductive ExecResult
  | ok (v : Nat)
  | unavailable (e : VoiceError)
  | allFailed (e : TerminalError)
deriving DecidableEq, Repr

/-- What one call to `executeWithFallback` produced: the final handler
state, the result, and the log of operation invocations in order — one
`(provider, outcome)` entry per invocation. -/
structure RunResult where
  handler : Handler
  result : ExecResult
  log : List (String × Outcome)
deriving DecidableEq, Repr

/-- Result of the primary retry loop: a resolved value, or fall-through to
the fallback loop carrying `lastError`, the exit value of the `attempt`
loop variable (the loop counter after a normal exit, the current attempt
after the availability `break`), the log, the next script index, and the
next time-oracle index. -/
inductive PrimRes
  | done (h : Handler) (v : Nat) (log : List (String × Outcome))
  | failed (h : Handler) (lastError : Option VoiceError) (attemptVar : Nat)
      (log : List (String × Outcome)) (k t : Nat)
deriving Repr

/-- The primary retry loop of `executeWithFallback`
(`for (attempt = 0; attempt <= retries; attempt++)`), run with
`remaining = retries + 1 - attempt` iterations left.  `script k` is the
outcome of the `k`-th operation invocation; `tf t` is the `Date.now()`
reading during loop iteration `t` (the retry delay only advances the
clock, so it has no other observable effect in the model). -/
def primAux (th cto tmo : Nat) (provider : String) (script : Nat → Outcome)
    (tf : Nat → Nat) :
    Nat → Nat → Nat → Nat → Handler → Option VoiceError →
    List (String × Outcome) → PrimRes
  | 0, attempt, k, t, h, le, log => .failed h le attempt log k t
  | r + 1, attempt, k, t, h, _le, log =>
      let h := updateStatsAt h provider recordRequest
      let log := log ++ [(provider, script k)]
      match script k with
      | .ok v =>
          let h := updateBreakerAt h provider recordSuccessBreaker
          let h := updateStatsAt h provider
            (recordSuccessStats ((tf t : Rat) - (tf 0 : Rat)))
          .done h v log
      | o =>
          let e := createVoiceError (o.toRaw tmo) provider attempt
          let h := updateStatsAt h provider (recordErrorStats e)
          let h := updateBreakerAt h provider
            (updateCircuitBreaker (tf t) th cto)
          let ch := checkAvailH (tf t) provider h
          if ch.1 then
            primAux th cto tmo provider script tf r (attempt + 1) (k + 1)
              (t + 1) ch.2 (some e) log
          else .failed ch.2 (some e) attempt log (k + 1) (t + 1)

/-- The fallback loop of `executeWithFallback`: each fallback is skipped
when its breaker reports unavailable, otherwise attempted exactly once;
returns the handler, the resolved value if any, and the log. -/
def fbAux (th cto tmo : Nat) (script : Nat → Outcome) (tf : Nat → Nat) :
    List String → Nat → Nat → Handler → List (String × Outcome) →
    Handler × Option Nat × List (String × Outcome)
  | [], _, _, h, log => (h, none, log)
  | fb :: rest, k, t, h, log =>
      let ch := checkAvailH (tf t) fb h
      if ch.1 then
        let h := updateStatsAt ch.2 fb recordRequest
        let log := log ++ [(fb, script k)]
        match script k with
        | .ok v =>
            let h := updateBreakerAt h fb recordSuccessBreaker
            let h := updateStatsAt h fb
              (recordSuccessStats ((tf t : Rat) - (tf 0 : Rat)))
            (h, some v, log)
        | o =>
            let e := createVoiceError (o.toRaw tmo) fb 0
            let h := updateStatsAt h fb (recordErrorStats e)
            let h := updateBreakerAt h fb (updateCircuitBreaker (tf t) th cto)
            fbAux th cto tmo script tf rest (k + 1) (t + 1) h log
      else fbAux th cto tmo script tf rest k (t + 1) ch.2 log

/-- `executeWithFallback(operation, config)`.

The initial breaker check (`Date.now()` reading `tf 0`) throws
`PROVIDER_UNAVAILABLE` when the primary's breaker reports unavailable;
otherwise the primary retry loop runs, then the fallback loop, and if no
provider resolved, the terminal `ALL_PROVIDERS_FAILED` error is thrown
with `attempts = attempt + 1` and the last error recorded by the *primary*
loop attached. -/
def executeWithFallback (h : Handler) (cfg : RouterConfig)
    (script : Nat → Outcome) (tf : Nat → Nat) : RunResult :=
  let ch := checkAvailH (tf 0) cfg.provider h
  if ch.1 then
    match primAux h.threshold h.cbTimeout cfg.timeoutMs cfg.provider script tf
        (cfg.retries + 1) 0 0 1 ch.2 none [] with
    | .done hp v log => { handler := hp, result := .ok v, log := log }
    | .failed hf le attemptVar log k t =>
        match fbAux h.threshold h.cbTimeout cfg.timeoutMs script tf
            cfg.fallbackProviders k t hf log with
        | (hq, some v, log) => { handler := hq, result := .ok v, log := log }
        | (hq, none, log) =>
            { handler := hq,
              result := .allFailed
                { message := "All providers failed. Last error: " ++
                    ((le.map VoiceError.message).getD ""),
                  provider := cfg.provider,
                  fallbackProviders := cfg.fallbackProviders,
                  attempts := attemptVar + 1,
                  lastError := le.map VoiceError.toJson },
              log := log }
  else
    { handler := ch.2,
      result := .unavailable
        { message := "Provider " ++ cfg.provider ++
            " is currently unavailable (circuit breaker open)",
          type := "PROVIDER_UNAVAILABLE",
          meta := { provider := some cfg.provider, circuitBreaker := true } },
      log := [] }

/-! ## Breaker event model for the reachability claims.

An attempt against a provider inside `executeWithFallback` is always
guarded by an `isProviderAvailable` check in the same sequential flow (the
pre-loop check or the end-of-iteration check for primary attempts, the
loop-head check for fallback attempts), so the reachable breaker states
are generated by availability probes and check-then-record attempt
events. -/

/-- One router-generated event on a single provider's breaker: a bare
availability probe, or an availability-checked attempt whose outcome is
recorded iff the check allowed it. -/
inductive RouterEvent
  | probe (now : Nat)
  | attempt (now : Nat) (ok : Bool)
deriving DecidableEq, Repr

/-- The breaker transition for one router event, composed from the source
operations `isProviderAvailable`, `recordSuccess`, `updateCircuitBreaker`. -/
def routerStep (th cto : Nat) (b : Breaker) : RouterEvent → Breaker
  | .probe now => (checkAvail now b).2
  | .attempt now ok =>
      let c := checkAvail now b
      if c.1 then
        if ok then recordSuccessBreaker c.2
        else updateCircuitBreaker now th cto c.2
      else c.2

/-- A breaker after a sequence of router events, starting anywhere. -/
def runBreaker (th cto : Nat) (b : Breaker) (evs : List RouterEvent) :
    Breaker :=
  evs.foldl (routerStep th cto) b

/-! ## Projections and counting helpers used by the theorems. -/

/-- The invocation log carried by a primary-loop result. -/
def PrimRes.logOf : PrimRes → List (String × Outcome)
  | .done _ _ log => log
  | .failed _ _ _ log _ _ => log

/-- The handler carried by a primary-loop result. -/
def PrimRes.handlerOf : PrimRes → Handler
  | .done h _ _ => h
  | .failed h _ _ _ _ _ => h

/-- Number of successful invocations in a log segment. -/
def okCount (l : List (String × Outcome)) : Nat :=
  l.countP fun x => x.2.isOk

/-- Number of failed invocations in a log segment. -/
def errCount (l : List (String × Outcome)) : Nat :=
  l.countP fun x => !x.2.isOk

/-- The handler state after the error-handling block of one failed attempt
on provider `p` at time `now` (statistics, then breaker update) — the
common shape of both the primary-loop and fallback-loop failure paths. -/
def afterFailure (th cto now : Nat) (p : String) (e : VoiceError)
    (h : Handler) : Handler :=
  updateBreakerAt (updateStatsAt (updateStatsAt h p recordRequest) p
    (recordErrorStats e)) p (updateCircuitBreaker now th cto)

/-- Specification of one primary-loop run used by the attempt-bound and
last-error theorems: the log grows by at most `r` entries, all against the
primary, and on fall-through the recorded `lastError` is the error of the
last logged primary attempt. -/
def PrimLogSpec (th cto tmo : Nat) (p : String) (script : Nat → Outcome)
    (tf : Nat → Nat) (r attempt k t : Nat) (h : Handler)
    (le : Option VoiceError) (log : List (String × Outcome)) : Prop :=
  ∃ nw : List (String × Outcome),
    (primAux th cto tmo p script tf r attempt k t h le log).logOf =
      log ++ nw ∧
    nw.length ≤ r ∧
    (∀ x ∈ nw, x.1 = p) ∧
    match primAux th cto tmo p script tf r attempt k t h le log with
    | .done _ _ _ => True
    | .failed _ le' _ _ _ _ =>
        (∀ x ∈ nw, x.2.isOk = false) ∧
        (1 ≤ r → nw ≠ []) ∧
        (nw = [] → le' = le) ∧
        ∀ x, nw.getLast? = some x →
          le' = some (createVoiceError (x.2.toRaw tmo) p
            (attempt + (nw.length - 1)))

/-- Specification of the primary loop's statistics bookkeeping for the
attempted provider: each failed attempt adds one `totalRequests` increment
(from `recordRequest`) and one `totalErrors` increment, each successful
attempt adds two `totalRequests` increments (`recordRequest` plus
`recordSuccess`), and after any attempt the stored `errorRate` is
`totalErrors / totalRequests` over the updated counters. -/
def PrimStatsSpec (th cto tmo : Nat) (p : String) (script : Nat → Outcome)
    (tf : Nat → Nat) (r attempt k t : Nat) (h : Handler)
    (le : Option VoiceError) (log : List (String × Outcome)) : Prop :=
  ∀ s0 : Stats, getAssoc h.stats p = some s0 →
    ∃ nw s1,
      (primAux th cto tmo p script tf r attempt k t h le log).logOf =
        log ++ nw ∧
      getAssoc (primAux th cto tmo p script tf r attempt k t h le
        log).handlerOf.stats p = some s1 ∧
      s1.totalRequests = s0.totalRequests + 2 * okCount nw + errCount nw ∧
      s1.totalErrors = s0.totalErrors + errCount nw ∧
      (nw = [] → s1 = s0) ∧
      (nw ≠ [] → s1.errorRate =
        (s1.totalErrors : Rat) / (s1.totalRequests : Rat))

/-! ## Concrete scenario inputs. -/

/-- A breaker that has been `OPEN` since time `0` with cooldown expiry at
time `1000` (five recorded failures — the spec's Scenario B shape). -/
def openBreaker5 : Breaker :=
  { state := .opened, failures := 5, lastFailureTime := some 0,
    nextAttemptTime := some 1000 }

/-- Handler with primary `p1` already `OPEN` and fallback `p2` fresh,
default configuration (threshold 5, cooldown 30000 ms). -/
def hScenarioB : Handler :=
  { breakers := [("p1", openBreaker5), ("p2", initialBreaker)],
    stats := [("p1", initialStats), ("p2", initialStats)],
    threshold := 5, cbTimeout := 30000 }

/-- Handler with fresh breakers and statistics for `p1` and `p2`. -/
def hFreshPair : Handler :=
  { breakers := [("p1", initialBreaker), ("p2", initialBreaker)],
    stats := [("p1", initialStats), ("p2", initialStats)],
    threshold := 5, cbTimeout := 30000 }

/-- A session whose upstream and client sockets are open. -/
def sOpen : Session :=
  { isConnectedToOpenAI := true, openaiWsOpen := true, clientWsOpen := true,
    audioBuffer := [] }

/-- A session that never connected upstream. -/
def sDisconnected : Session :=
  { isConnectedToOpenAI := false, openaiWsOpen := false,
    clientWsOpen := true, audioBuffer := [] }

/-- Script for the C8 scenario: the first invocation (primary) rejects with
a 500-class message, every later invocation (fallback) rejects with a
401-class message. -/
def scriptC8 : Nat → Outcome :=
  fun k => if k = 0 then .err "500 server exploded" else .err "401 unauthorized"

/-- The Scenario B router configuration. -/
def cfgScenarioB : RouterConfig :=
  { provider := "p1", fallbackProviders := ["p2"], retries := 3 }

/-- The C8 scenario configuration: no retries, one fallback. -/
def cfgC8 : RouterConfig :=
  { provider := "p1", fallbackProviders := ["p2"], retries := 0 }

/-- A `HALF_OPEN` breaker (five recorded failures, cooldown expiry 1000). -/
def halfOpenBreaker5 : Breaker :=
  { state := .halfOpen, failures := 5, lastFailureTime := some 0,
    nextAttemptTime := some 1000 }

/-- Five checked failing attempts in a row. -/
def evsFiveFails : List RouterEvent :=
  [.attempt 0 false, .attempt 1 false, .attempt 2 false, .attempt 3 false,
   .attempt 4 false]

/-- Handler with a single fresh provider entry and explicit breaker
configuration. -/
def freshHandlerFor (p : String) (th cto : Nat) : Handler :=
  { breakers := [(p, initialBreaker)], stats := [(p, initialStats)],
    threshold := th, cbTimeout := cto }

/-! # Theorems -/

/-! ## Association-list and handler-plumbing lemmas. -/

theorem mapAssoc_nil {α : Type} (f : α → α) (k : String) :
    mapAssoc f k ([] : List (String × α)) = [] := rfl

theorem mapAssoc_cons_self {α : Type} (f : α → α) (k : String) (v : α)
    (l : List (String × α)) :
    mapAssoc f k ((k, v) :: l) = (k, f v) :: mapAssoc f k l := by
  simp [mapAssoc]

theorem mapAssoc_cons_ne {α : Type} (f : α → α) {k k' : String} (h : k' ≠ k)
    (v : α) (l : List (String × α)) :
    mapAssoc f k ((k', v) :: l) = (k', v) :: mapAssoc f k l := by
  simp [mapAssoc, h]

theorem getAssoc_mapAssoc_self {α : Type} (f : α → α) (k : String)
    (l : List (String × α)) :
    getAssoc (mapAssoc f k l) k = (getAssoc l k).map f := by
  induction l with
  | nil => rfl
  | cons e rest ih =>
      obtain ⟨k', v⟩ := e
      by_cases h : k' = k
      · subst h
        rw [mapAssoc_cons_self]
        simp [getAssoc]
      · rw [mapAssoc_cons_ne f h]
        simp [getAssoc, h, ih]

theorem getAssoc_mapAssoc_ne {α : Type} (f : α → α) {k q : String}
    (hq : q ≠ k) (l : List (String × α)) :
    getAssoc (mapAssoc f k l) q = getAssoc l q := by
  induction l with
  | nil => rfl
  | cons e rest ih =>
      obtain ⟨k', v⟩ := e
      by_cases h : k' = k
      · subst h
        rw [mapAssoc_cons_self]
        simp [getAssoc, Ne.symm hq, ih]
      · rw [mapAssoc_cons_ne f h]
        simp [getAssoc, ih]

theorem updateBreakerAt_stats (h : Handler) (p : String) (f : Breaker → Breaker) :
    (updateBreakerAt h p f).stats = h.stats := rfl

theorem updateStatsAt_breakers (h : Handler) (p : String) (f : Stats → Stats) :
    (updateStatsAt h p f).breakers = h.breakers := rfl

theorem checkAvailH_stats (now : Nat) (p : String) (h : Handler) :
    (checkAvailH now p h).2.stats = h.stats := by
  unfold checkAvailH
  rcases hg : getAssoc h.breakers p with _ | b
  · rfl
  · rcases hs : b.state <;> simp [hs]
    split <;> rfl

theorem checkAvailH_breakers_ne (now : Nat) (p q : String) (h : Handler)
    (hq : q ≠ p) :
    getAssoc ((checkAvailH now p h).2).breakers q = getAssoc h.breakers q := by
  unfold checkAvailH
  rcases hg : getAssoc h.breakers p with _ | b
  · rfl
  · rcases hs : b.state <;> simp [hs]
    split
    · simp [updateBreakerAt, getAssoc_mapAssoc_ne _ hq]
    · rfl

/-! ## Unfolding lemmas for the router loops. -/

@[simp] theorem PrimRes.logOf_done (h : Handler) (v : Nat)
    (log : List (String × Outcome)) :
    (PrimRes.done h v log).logOf = log := rfl

@[simp] theorem PrimRes.logOf_failed (h : Handler) (le : Option VoiceError)
    (a : Nat) (log : List (String × Outcome)) (k t : Nat) :
    (PrimRes.failed h le a log k t).logOf = log := rfl

@[simp] theorem PrimRes.handlerOf_done (h : Handler) (v : Nat)
    (log : List (String × Outcome)) :
    (PrimRes.done h v log).handlerOf = h := rfl

@[simp] theorem PrimRes.handlerOf_failed (h : Handler)
    (le : Option VoiceError) (a : Nat) (log : List (String × Outcome))
    (k t : Nat) :
    (PrimRes.failed h le a log k t).handlerOf = h := rfl

theorem primAux_zero (th cto tmo : Nat) (p : String) (script : Nat → Outcome)
    (tf : Nat → Nat) (attempt k t : Nat) (h : Handler)
    (le : Option VoiceError) (log : List (String × Outcome)) :
    primAux th cto tmo p script tf 0 attempt k t h le log =
      .failed h le attempt log k t := rfl

theorem primAux_succ_ok (th cto tmo : Nat) (p : String)
    (script : Nat → Outcome) (tf : Nat → Nat) (r attempt k t : Nat)
    (h : Handler) (le : Option VoiceError) (log : List (String × Outcome))
    (v : Nat) (hk : script k = .ok v) :
    primAux th cto tmo p script tf (r + 1) attempt k t h le log =
      .done (updateStatsAt (updateBreakerAt (updateStatsAt h p recordRequest)
          p recordSuccessBreaker) p
          (recordSuccessStats ((tf t : Rat) - (tf 0 : Rat)))) v
        (log ++ [(p, .ok v)]) := by
  simp [primAux, hk]

theorem primAux_succ_fail (th cto tmo : Nat) (p : String)
    (script : Nat → Outcome) (tf : Nat → Nat) (r attempt k t : Nat)
    (h : Handler) (le : Option VoiceError) (log : List (String × Outcome))
    (o : Outcome) (hk : script k = o) (ho : o.isOk = false) :
    primAux th cto tmo p script tf (r + 1) attempt k t h le log =
      if (checkAvailH (tf t) p (afterFailure th cto (tf t) p
          (createVoiceError (o.toRaw tmo) p attempt) h)).1 then
        primAux th cto tmo p script tf r (attempt + 1) (k + 1) (t + 1)
          (checkAvailH (tf t) p (afterFailure th cto (tf t) p
            (createVoiceError (o.toRaw tmo) p attempt) h)).2
          (some (createVoiceError (o.toRaw tmo) p attempt)) (log ++ [(p, o)])
      else
        .failed (checkAvailH (tf t) p (afterFailure th cto (tf t) p
            (createVoiceError (o.toRaw tmo) p attempt) h)).2
          (some (createVoiceError (o.toRaw tmo) p attempt)) attempt
          (log ++ [(p, o)]) (k + 1) (t + 1) := by
  cases o with
  | ok v => simp [Outcome.isOk] at ho
  | err m => simp [primAux, hk, afterFailure]
  | timeout => simp [primAux, hk, afterFailure]

theorem fbAux_nil (th cto tmo : Nat) (script : Nat → Outcome)
    (tf : Nat → Nat) (k t : Nat) (h : Handler)
    (log : List (String × Outcome)) :
    fbAux th cto tmo script tf [] k t h log = (h, none, log) := rfl

theorem fbAux_cons_skip (th cto tmo : Nat) (script : Nat → Outcome)
    (tf : Nat → Nat) (fb : String) (rest : List String) (k t : Nat)
    (h : Handler) (log : List (String × Outcome))
    (hav : (checkAvailH (tf t) fb h).1 = false) :
    fbAux th cto tmo script tf (fb :: rest) k t h log =
      fbAux th cto tmo script tf rest k (t + 1) (checkAvailH (tf t) fb h).2
        log := by
  simp [fbAux, hav]

theorem fbAux_cons_ok (th cto tmo : Nat) (script : Nat → Outcome)
    (tf : Nat → Nat) (fb : String) (rest : List String) (k t : Nat)
    (h : Handler) (log : List (String × Outcome)) (v : Nat)
    (hk : script k = .ok v) (hav : (checkAvailH (tf t) fb h).1 = true) :
    fbAux th cto tmo script tf (fb :: rest) k t h log =
      (updateStatsAt (updateBreakerAt (updateStatsAt (checkAvailH (tf t) fb
          h).2 fb recordRequest) fb recordSuccessBreaker) fb
          (recordSuccessStats ((tf t : Rat) - (tf 0 : Rat))),
        some v, log ++ [(fb, .ok v)]) := by
  simp [fbAux, hav, hk]

theorem fbAux_cons_fail (th cto tmo : Nat) (script : Nat → Outcome)
    (tf : Nat → Nat) (fb : String) (rest : List String) (k t : Nat)
    (h : Handler) (log : List (String × Outcome)) (o : Outcome)
    (hk : script k = o) (ho : o.isOk = false)
    (hav : (checkAvailH (tf t) fb h).1 = true) :
    fbAux th cto tmo script tf (fb :: rest) k t h log =
      fbAux th cto tmo script tf rest (k + 1) (t + 1)
        (updateBreakerAt (updateStatsAt (updateStatsAt (checkAvailH (tf t) fb
          h).2 fb recordRequest) fb
          (recordErrorStats (createVoiceError (o.toRaw tmo) fb 0))) fb
          (updateCircuitBreaker (tf t) th cto))
        (log ++ [(fb, o)]) := by
  cases o with
  | ok v => simp [Outcome.isOk] at ho
  | err m => simp [fbAux, hav, hk]
  | timeout => simp [fbAux, hav, hk]

/-! ## Log shape of the primary and fallback loops. -/

theorem primLogSpec_zero (th cto tmo : Nat) (p : String)
    (script : Nat → Outcome) (tf : Nat → Nat) (attempt k t : Nat)
    (h : Handler) (le : Option VoiceError) (log : List (String × Outcome)) :
    PrimLogSpec th cto tmo p script tf 0 attempt k t h le log := by
  unfold PrimLogSpec
  rw [primAux_zero]
  exact ⟨[], by simp, by simp, by simp,
    ⟨by simp, by omega, fun _ => rfl, fun x hx => by simp at hx⟩⟩

theorem primLogSpec_fail_step (th cto tmo : Nat) (p : String)
    (script : Nat → Outcome) (tf : Nat → Nat) (r attempt k t : Nat)
    (h : Handler) (le : Option VoiceError) (log : List (String × Outcome))
    (o : Outcome) (hk : script k = o) (ho : o.isOk = false)
    (ih : ∀ (attempt k t : Nat) (h : Handler) (le : Option VoiceError)
      (log : List (String × Outcome)),
      PrimLogSpec th cto tmo p script tf r attempt k t h le log) :
    PrimLogSpec th cto tmo p script tf (r + 1) attempt k t h le log := by
  unfold PrimLogSpec
  rw [primAux_succ_fail th cto tmo p script tf r attempt k t h le log o hk ho]
  by_cases hav : (checkAvailH (tf t) p (afterFailure th cto (tf t) p
      (createVoiceError (o.toRaw tmo) p attempt) h)).1
  · rw [if_pos hav]
    obtain ⟨nw', h1, h2, h3, h4⟩ := ih (attempt + 1) (k + 1) (t + 1)
      (checkAvailH (tf t) p (afterFailure th cto (tf t) p
        (createVoiceError (o.toRaw tmo) p attempt) h)).2
      (some (createVoiceError (o.toRaw tmo) p attempt)) (log ++ [(p, o)])
    refine ⟨(p, o) :: nw', ?_, by simpa using h2, ?_, ?_⟩
    · rw [h1]; simp
    · intro x hx
      cases List.mem_cons.mp hx with
      | inl hh => rw [hh]
      | inr hh => exact h3 x hh
    · cases hres : primAux th cto tmo p script tf r (attempt + 1) (k + 1)
        (t + 1) (checkAvailH (tf t) p (afterFailure th cto (tf t) p
          (createVoiceError (o.toRaw tmo) p attempt) h)).2
        (some (createVoiceError (o.toRaw tmo) p attempt))
        (log ++ [(p, o)]) with
      | done hh v lg => trivial
      | failed hh le' a lg kk tt =>
          rw [hres] at h4
          obtain ⟨ha, _, hc, hd⟩ := h4
          refine ⟨?_, fun _ => by simp, fun hcon => by simp at hcon, ?_⟩
          · intro x hx
            cases List.mem_cons.mp hx with
            | inl hh2 => rw [hh2]; exact ho
            | inr hh2 => exact ha x hh2
          · intro x hx
            cases hnw : nw' with
            | nil =>
                rw [hnw] at hx
                rw [List.getLast?_singleton] at hx
                have hle := hc hnw
                rw [hle]
                cases hx
                simp
            | cons y ys =>
                rw [hnw] at hx
                rw [List.getLast?_cons_cons] at hx
                have hle := hd x (by rw [hnw]; exact hx)
                rw [hle, hnw]
                have harith : attempt + 1 + ((y :: ys).length - 1) =
                    attempt + (((p, o) :: y :: ys).length - 1) := by
                  simp
                  omega
                rw [harith]
  · rw [if_neg hav]
    refine ⟨[(p, o)], by simp, by simp, by simp, ?_⟩
    refine ⟨?_, fun _ => by simp, fun hcon => by simp at hcon, ?_⟩
    · intro x hx
      simp at hx
      rw [hx]
      exact ho
    · intro x hx
      rw [List.getLast?_singleton] at hx
      cases hx
      simp

theorem primLogSpec_all (th cto tmo : Nat) (p : String)
    (script : Nat → Outcome) (tf : Nat → Nat) :
    ∀ (r attempt k t : Nat) (h : Handler) (le : Option VoiceError)
      (log : List (String × Outcome)),
      PrimLogSpec th cto tmo p script tf r attempt k t h le log := by
  intro r
  induction r with
  | zero => exact primLogSpec_zero th cto tmo p script tf
  | succ r ih =>
      intro attempt k t h le log
      cases hk : script k with
      | ok v =>
          unfold PrimLogSpec
          rw [primAux_succ_ok th cto tmo p script tf r attempt k t h le log
            v hk]
          exact ⟨[(p, .ok v)], by simp, by simp, by simp, trivial⟩
      | err m =>
          exact primLogSpec_fail_step th cto tmo p script tf r attempt k t h
            le log (.err m) hk rfl ih
      | timeout =>
          exact primLogSpec_fail_step th cto tmo p script tf r attempt k t h
            le log .timeout hk rfl ih

theorem fbAux_log_spec (th cto tmo : Nat) (script : Nat → Outcome)
    (tf : Nat → Nat) :
    ∀ (fbs : List String) (k t : Nat) (h : Handler)
      (log : List (String × Outcome)),
      ∃ nw : List (String × Outcome),
        (fbAux th cto tmo script tf fbs k t h log).2.2 = log ++ nw ∧
        List.Sublist (nw.map Prod.fst) fbs ∧
        ((fbAux th cto tmo script tf fbs k t h log).2.1 = none →
          ∀ x ∈ nw, x.2.isOk = false) := by
  intro fbs
  induction fbs with
  | nil =>
      intro k t h log
      exact ⟨[], by simp [fbAux_nil], by simp, fun _ x hx => by simp at hx⟩
  | cons fb rest ih =>
      intro k t h log
      by_cases hav : (checkAvailH (tf t) fb h).1
      · cases hk : script k with
        | ok v =>
            rw [fbAux_cons_ok th cto tmo script tf fb rest k t h log v hk hav]
            refine ⟨[(fb, .ok v)], by simp, ?_, ?_⟩
            · simp
            · intro hnone
              simp at hnone
        | err m =>
            rw [fbAux_cons_fail th cto tmo script tf fb rest k t h log
              (.err m) hk rfl hav]
            obtain ⟨nw', h1, h2, h3⟩ := ih (k + 1) (t + 1) _ (log ++ [(fb, .err m)])
            refine ⟨(fb, .err m) :: nw', by rw [h1]; simp, ?_, ?_⟩
            · simpa using List.Sublist.cons₂ fb h2
            · intro hnone x hx
              cases List.mem_cons.mp hx with
              | inl hh => rw [hh]; rfl
              | inr hh => exact h3 hnone x hh
        | timeout =>
            rw [fbAux_cons_fail th cto tmo script tf fb rest k t h log
              .timeout hk rfl hav]
            obtain ⟨nw', h1, h2, h3⟩ := ih (k + 1) (t + 1) _ (log ++ [(fb, .timeout)])
            refine ⟨(fb, .timeout) :: nw', by rw [h1]; simp, ?_, ?_⟩
            · simpa using List.Sublist.cons₂ fb h2
            · intro hnone x hx
              cases List.mem_cons.mp hx with
              | inl hh => rw [hh]; rfl
              | inr hh => exact h3 hnone x hh
      · rw [fbAux_cons_skip th cto tmo script tf fb rest k t h log
          (by simpa using hav)]
        obtain ⟨nw', h1, h2, h3⟩ := ih k (t + 1) (checkAvailH (tf t) fb h).2 log
        exact ⟨nw', h1, h2.trans (List.sublist_cons_self fb rest), h3⟩

/-! ## Unfolding `executeWithFallback` through its three exits. -/

theorem mem_of_getLast?_eq {α : Type} {l : List α} {a : α}
    (h : l.getLast? = some a) : a ∈ l := by
  obtain ⟨hne, rfl⟩ := List.mem_getLast?_eq_getLast
    (show a ∈ l.getLast? by simp [Option.mem_def, h])
  exact List.getLast_mem hne

/-- When the initial breaker check reports the primary unavailable, the
call throws `PROVIDER_UNAVAILABLE` at once, with an empty invocation
log. -/
theorem executeWithFallback_of_unavailable (h : Handler) (cfg : RouterConfig)
    (script : Nat → Outcome) (tf : Nat → Nat)
    (hav : (checkAvailH (tf 0) cfg.provider h).1 = false) :
    executeWithFallback h cfg script tf =
      { handler := (checkAvailH (tf 0) cfg.provider h).2,
        result := .unavailable
          { message := "Provider " ++ cfg.provider ++
              " is currently unavailable (circuit breaker open)",
            type := "PROVIDER_UNAVAILABLE",
            meta := { provider := some cfg.provider, circuitBreaker := true } },
        log := [] } := by
  unfold executeWithFallback
  simp [hav]

/-- Claim C1 (counterexample): with the primary's breaker `OPEN` and the
cooldown not elapsed (`tf 0 = 0 < 1000`), a fallback list `["p2"]` and an
operation that always succeeds with `42`, `executeWithFallback` does *not*
return `p2`'s result: it throws `PROVIDER_UNAVAILABLE` immediately and no
operation invocation happens at all (`p2` is never attempted). -/
theorem C1_counterexample :
    (executeWithFallback hScenarioB cfgScenarioB
        (fun _ => .ok 42) (fun _ => 0)).result ≠ .ok 42 ∧
    (executeWithFallback hScenarioB cfgScenarioB
        (fun _ => .ok 42) (fun _ => 0)).log = [] ∧
    (executeWithFallback hScenarioB cfgScenarioB
        (fun _ => .ok 42) (fun _ => 0)).result =
      .unavailable
        { message := "Provider p1 is currently unavailable (circuit breaker open)",
          type := "PROVIDER_UNAVAILABLE",
          meta := { provider := some "p1", circuitBreaker := true } } := by
  refine ⟨by decide, by decide, by decide⟩

/-- Claim C1 (amended): whenever the primary's circuit breaker reports
unavailable at the initial check, `executeWithFallback` throws
`PROVIDER_UNAVAILABLE` immediately: the primary is never attempted, but
the fallback providers are not attempted either (the call does not return
a fallback result), and every other provider's breaker — in particular a
fallback's, which therefore stays `CLOSED` if it was `CLOSED` — is left
untouched. -/
theorem executeWithFallback_of_done (h : Handler) (cfg : RouterConfig)
    (script : Nat → Outcome) (tf : Nat → Nat) (hd : Handler) (v : Nat)
    (lg : List (String × Outcome))
    (hav : (checkAvailH (tf 0) cfg.provider h).1 = true)
    (hres : primAux h.threshold h.cbTimeout cfg.timeoutMs cfg.provider script
      tf (cfg.retries + 1) 0 0 1 (checkAvailH (tf 0) cfg.provider h).2
      none [] = .done hd v lg) :
    executeWithFallback h cfg script tf =
      { handler := hd, result := .ok v, log := lg } := by
  unfold executeWithFallback
  simp [hav, hres]

theorem executeWithFallback_of_failed (h : Handler) (cfg : RouterConfig)
    (script : Nat → Outcome) (tf : Nat → Nat) (hd : Handler)
    (le : Option VoiceError) (a : Nat) (lg : List (String × Outcome))
    (k2 t2 : Nat)
    (hav : (checkAvailH (tf 0) cfg.provider h).1 = true)
    (hres : primAux h.threshold h.cbTimeout cfg.timeoutMs cfg.provider script
      tf (cfg.retries + 1) 0 0 1 (checkAvailH (tf 0) cfg.provider h).2
      none [] = .failed hd le a lg k2 t2) :
    executeWithFallback h cfg script tf =
      match fbAux h.threshold h.cbTimeout cfg.timeoutMs script tf
          cfg.fallbackProviders k2 t2 hd lg with
      | (fh, some v, flog) => { handler := fh, result := .ok v, log := flog }
      | (fh, none, flog) =>
          { handler := fh,
            result := .allFailed
              { message := "All providers failed. Last error: " ++
                  ((le.map VoiceError.message).getD ""),
                provider := cfg.provider,
                fallbackProviders := cfg.fallbackProviders,
                attempts := a + 1,
                lastError := le.map VoiceError.toJson },
            log := flog } := by
  unfold executeWithFallback
  simp [hav, hres]

/-! ## Claim C2. -/

/-- Claim C2: in every `executeWithFallback` call, the invocation log
splits into a primary segment of at most `retries + 1` attempts, all
against the primary provider, followed by a fallback segment whose
providers form a sublist of the fallback list (each fallback attempted at
most once, in order — no nested retry loop); hence the total number of
operation invocations is at most `retries + 1 + |fallbackProviders|`. -/
theorem C2_attempt_bound (h : Handler) (cfg : RouterConfig)
    (script : Nat → Outcome) (tf : Nat → Nat) :
    ∃ prim fall : List (String × Outcome),
      (executeWithFallback h cfg script tf).log = prim ++ fall ∧
      prim.length ≤ cfg.retries + 1 ∧
      (∀ x ∈ prim, x.1 = cfg.provider) ∧
      List.Sublist (fall.map Prod.fst) cfg.fallbackProviders ∧
      (executeWithFallback h cfg script tf).log.length ≤
        cfg.retries + 1 + cfg.fallbackProviders.length := by
  by_cases hav : (checkAvailH (tf 0) cfg.provider h).1
  · have hps := primLogSpec_all h.threshold h.cbTimeout cfg.timeoutMs
      cfg.provider script tf (cfg.retries + 1) 0 0 1
      (checkAvailH (tf 0) cfg.provider h).2 none []
    unfold PrimLogSpec at hps
    obtain ⟨nw, h1, h2, h3, _⟩ := hps
    cases hres : primAux h.threshold h.cbTimeout cfg.timeoutMs cfg.provider
      script tf (cfg.retries + 1) 0 0 1
      (checkAvailH (tf 0) cfg.provider h).2 none [] with
    | done hd v lg =>
        rw [hres] at h1
        simp at h1
        rw [executeWithFallback_of_done h cfg script tf hd v lg hav hres]
        refine ⟨nw, [], by simpa using h1, h2, h3, by simp, ?_⟩
        simp [h1]
        omega
    | failed hd le a lg k2 t2 =>
        rw [hres] at h1
        simp at h1
        obtain ⟨nwf, f1, f2, f3⟩ := fbAux_log_spec h.threshold h.cbTimeout
          cfg.timeoutMs script tf cfg.fallbackProviders k2 t2 hd lg
        have hlog : (executeWithFallback h cfg script tf).log =
            (fbAux h.threshold h.cbTimeout cfg.timeoutMs script tf
              cfg.fallbackProviders k2 t2 hd lg).2.2 := by
          rw [executeWithFallback_of_failed h cfg script tf hd le a lg k2 t2
            hav hres]
          rcases hfb : fbAux h.threshold h.cbTimeout cfg.timeoutMs script tf
            cfg.fallbackProviders k2 t2 hd lg with ⟨fh, fo, flog⟩
          cases fo <;> simp
        have hlen : nwf.length ≤ cfg.fallbackProviders.length := by
          have := f2.length_le
          simpa using this
        refine ⟨nw, nwf, ?_, h2, h3, f2, ?_⟩
        · rw [hlog, f1, h1]
        · rw [hlog, f1, h1]
          simp
          omega
  · rw [executeWithFallback_of_unavailable h cfg script tf
      (by simpa using hav)]
    exact ⟨[], [], by simp, by simp, by simp, by simp, by simp⟩

/-! ## Claim C8. -/

/-- Claim C8 (counterexample): primary `p1` fails once with a 500-class
error (`SERVER_ERROR`), then fallback `p2` fails with a 401-class error
(`AUTHENTICATION_ERROR`) — the terminal `ALL_PROVIDERS_FAILED` error is
raised, but its attached `lastError` is the *primary's* `SERVER_ERROR`,
not the most recent failure (`p2`'s `AUTHENTICATION_ERROR`). -/
theorem C8_counterexample :
    (executeWithFallback hFreshPair cfgC8 scriptC8 (fun _ => 0)).log =
      [("p1", .err "500 server exploded"), ("p2", .err "401 unauthorized")] ∧
    (createVoiceError (.jsError "401 unauthorized") "p2" 0).type =
      "AUTHENTICATION_ERROR" ∧
    (executeWithFallback hFreshPair cfgC8 scriptC8 (fun _ => 0)).result =
      .allFailed
        { message := "All providers failed. Last error: 500 server exploded",
          provider := "p1", fallbackProviders := ["p2"], attempts := 2,
          lastError := some
            { message := "500 server exploded", type := "SERVER_ERROR",
              meta := { provider := some "p1", attempt := some 0,
                        isRetryable := some true },
              isRetryable := true } } ∧
    "SERVER_ERROR" ≠ "AUTHENTICATION_ERROR" := by
  refine ⟨by decide, by decide, by decide, by decide⟩

/-- Claim C8 (amended): when all providers fail, `executeWithFallback`
raises a single terminal `ALL_PROVIDERS_FAILED` error whose attached
`lastError` is the error record of the *last primary attempt*; the
fallback failures that follow it in the log are recorded against the
fallback providers' statistics and breakers but never update the attached
`lastError`. -/
theorem C8_amended_lastError_from_primary (h : Handler) (cfg : RouterConfig)
    (script : Nat → Outcome) (tf : Nat → Nat) (te : TerminalError)
    (hte : (executeWithFallback h cfg script tf).result = .allFailed te) :
    ∃ prim fall : List (String × Outcome),
      (executeWithFallback h cfg script tf).log = prim ++ fall ∧
      (∀ x ∈ prim, x.1 = cfg.provider) ∧
      List.Sublist (fall.map Prod.fst) cfg.fallbackProviders ∧
      (∀ x ∈ fall, x.2.isOk = false) ∧
      ∃ x : String × Outcome, prim.getLast? = some x ∧ x.2.isOk = false ∧
        te.lastError = some ((createVoiceError (x.2.toRaw cfg.timeoutMs)
          cfg.provider (prim.length - 1)).toJson) := by
  by_cases hav : (checkAvailH (tf 0) cfg.provider h).1
  · have hps := primLogSpec_all h.threshold h.cbTimeout cfg.timeoutMs
      cfg.provider script tf (cfg.retries + 1) 0 0 1
      (checkAvailH (tf 0) cfg.provider h).2 none []
    unfold PrimLogSpec at hps
    obtain ⟨nw, h1, h2, h3, h4⟩ := hps
    cases hres : primAux h.threshold h.cbTimeout cfg.timeoutMs cfg.provider
      script tf (cfg.retries + 1) 0 0 1
      (checkAvailH (tf 0) cfg.provider h).2 none [] with
    | done hd v lg =>
        rw [executeWithFallback_of_done h cfg script tf hd v lg hav hres]
          at hte
        simp at hte
    | failed hd le a lg k2 t2 =>
        rw [hres] at h1 h4
        simp at h1
        obtain ⟨hfail, hne, _, hlast⟩ := h4
        obtain ⟨nwf, f1, f2, f3⟩ := fbAux_log_spec h.threshold h.cbTimeout
          cfg.timeoutMs script tf cfg.fallbackProviders k2 t2 hd lg
        have hrw := executeWithFallback_of_failed h cfg script tf hd le a lg
          k2 t2 hav hres
        rcases hfb : fbAux h.threshold h.cbTimeout cfg.timeoutMs script tf
          cfg.fallbackProviders k2 t2 hd lg with ⟨fh, fo, flog⟩
        rw [hfb] at hrw f1 f3
        cases fo with
        | some v =>
            rw [hrw] at hte
            simp at hte
        | none =>
            rw [hrw] at hte
            simp only [ExecResult.allFailed.injEq] at hte
            have hf1 : flog = lg ++ nwf := by simpa using f1
            have hf3 : ∀ x ∈ nwf, x.2.isOk = false := f3 rfl
            have hnw : nw ≠ [] := hne (by omega)
            obtain ⟨x, hx⟩ : ∃ x, nw.getLast? = some x := by
              cases hnwl : nw.getLast? with
              | none => exact absurd (List.getLast?_eq_none_iff.mp hnwl) hnw
              | some y => exact ⟨y, rfl⟩
            refine ⟨nw, nwf, ?_, h3, f2, hf3, x, hx,
              hfail x (mem_of_getLast?_eq hx), ?_⟩
            · rw [hrw]
              show flog = nw ++ nwf
              rw [hf1, h1]
            · rw [← hte]
              show (Option.map VoiceError.toJson le) = _
              rw [hlast x hx]
              simp
  · rw [executeWithFallback_of_unavailable h cfg script tf
      (by simpa using hav)] at hte
    simp at hte

/-- Claim C8 (witness for the amended theorem, at the counterexample
scenario). -/
theorem C8_amended_witness :
    ∃ prim fall : List (String × Outcome),
      (executeWithFallback hFreshPair cfgC8 scriptC8 (fun _ => 0)).log =
        prim ++ fall ∧
      (∀ x ∈ prim, x.1 = cfgC8.provider) ∧
      List.Sublist (fall.map Prod.fst) cfgC8.fallbackProviders ∧
      (∀ x ∈ fall, x.2.isOk = false) ∧
      ∃ x : String × Outcome, prim.getLast? = some x ∧ x.2.isOk = false ∧
        (TerminalError.mk
          "All providers failed. Last error: 500 server exploded" "p1" ["p2"]
          2 (some
            { message := "500 server exploded", type := "SERVER_ERROR",
              meta := { provider := some "p1", attempt := some 0,
                        isRetryable := some true },
              isRetryable := true })).lastError =
          some ((createVoiceError (x.2.toRaw cfgC8.timeoutMs)
            cfgC8.provider (prim.length - 1)).toJson) :=
  C8_amended_lastError_from_primary hFreshPair cfgC8 scriptC8 (fun _ => 0)
    _ (by decide)

/-! ## Claim C4. -/

/-- Claim C4 (code bug, evaluation at the failing input): with the three
padded audio-delta fragments `QQ==`, `Qg==`, `Qw==` followed by
`audio_done`, the joined string decodes (Node base64 semantics, stopping
at the first `=`) to the single byte `65` — not to the three bytes
`65, 66, 67` obtained by decoding the fragments individually.  One decoded
byte is far below the 4096-byte pooling threshold, so the `Int16Array`
view reads the whole allocation pool: whatever the pool holds, exactly one
`audio_output` message is emitted whose data is the 4096-sample pool view
— not the PCM decoding of the concatenated fragments, which does not even
have a whole number of 16-bit samples — and the pending buffer is
cleared. -/
theorem C4_padded_fragment_join_eval :
    nodeB64Decode (String.join ["QQ==", "Qg==", "Qw=="]) = [65] ∧
    nodeB64Decode "QQ==" ++ nodeB64Decode "Qg==" ++ nodeB64Decode "Qw==" =
      [65, 66, 67] ∧
    bytesToSamplesOpt (nodeB64Decode (String.join ["QQ==", "Qg==", "Qw=="]))
      = none ∧
    ∀ pool : List Int,
      runOpenAIMsgs pool sOpen
        [.audioDelta (some "QQ=="), .audioDelta (some "Qg=="),
         .audioDelta (some "Qw=="), .audioDone] =
        ({ sOpen with audioBuffer := [] }, [.audioOutput pool]) := by
  refine ⟨by decide, by decide, by decide, fun pool => rfl⟩

/-! ## Claim C9. -/

/-- Claim C9 (counterexample): a `commit_audio` message received while no
provider connection is open is silently dropped — the session is unchanged
and *nothing* is sent to the provider or to the client, in particular no
error of any kind. -/
theorem C9_counterexample :
    handleClientMessage sDisconnected .commitAudio =
      (sDisconnected, [], []) := by decide

/-- Claim C9 (amended): when no provider connection is open, `commit_audio`
is silently ignored (no provider events and no client error); when the
connection is open, the session forwards `input_audio_buffer.commit`
followed by `response.create`, in that order. -/
theorem C9_amended_commit_behavior (s : Session) :
    (s.isConnectedToOpenAI = false →
      handleClientMessage s .commitAudio = (s, [], [])) ∧
    (s.isConnectedToOpenAI = true → s.openaiWsOpen = true →
      handleClientMessage s .commitAudio =
        (s, [.commitBuffer, .responseCreate], [])) := by
  constructor
  · intro h1
    simp [handleClientMessage, h1]
  · intro h1 h2
    simp [handleClientMessage, sendToOpenAI, h1, h2]

/-- Claim C9 (witness for the amended theorem). -/
theorem C9_amended_witness :
    handleClientMessage sDisconnected .commitAudio = (sDisconnected, [], []) ∧
    handleClientMessage sOpen .commitAudio =
      (sOpen, [.commitBuffer, .responseCreate], []) :=
  ⟨(C9_amended_commit_behavior sDisconnected).1 rfl,
   (C9_amended_commit_behavior sOpen).2 rfl rfl⟩

/-! ## Claim C1. -/

theorem C1_amended_unavailable_throws (h : Handler) (cfg : RouterConfig)
    (script : Nat → Outcome) (tf : Nat → Nat)
    (hav : (checkAvailH (tf 0) cfg.provider h).1 = false) :
    executeWithFallback h cfg script tf =
      { handler := (checkAvailH (tf 0) cfg.provider h).2,
        result := .unavailable
          { message := "Provider " ++ cfg.provider ++
              " is currently unavailable (circuit breaker open)",
            type := "PROVIDER_UNAVAILABLE",
            meta := { provider := some cfg.provider, circuitBreaker := true } },
        log := [] } ∧
    ∀ q, q ≠ cfg.provider →
      getAssoc (executeWithFallback h cfg script tf).handler.breakers q =
        getAssoc h.breakers q := by
  have hrun := executeWithFallback_of_unavailable h cfg script tf hav
  refine ⟨hrun, fun q hq => ?_⟩
  rw [hrun]
  exact checkAvailH_breakers_ne (tf 0) cfg.provider q h hq

/-- Claim C1 (witness for the amended theorem): the Scenario B instance —
the immediate throw happens, the log is empty, and `p2`'s breaker is still
the fresh `CLOSED` breaker. -/
theorem C1_amended_witness :
    (executeWithFallback hScenarioB cfgScenarioB
        (fun _ => .ok 42) (fun _ => 0)).log = [] ∧
    getAssoc (executeWithFallback hScenarioB cfgScenarioB
        (fun _ => .ok 42) (fun _ => 0)).handler.breakers "p2" =
      some initialBreaker := by
  have h := C1_amended_unavailable_throws hScenarioB cfgScenarioB
    (fun _ => .ok 42) (fun _ => 0) (by decide)
  constructor
  · rw [h.1]
  · rw [h.2 "p2" (by decide)]
    decide

/-! ## Claim C3. -/

/-- Claim C3 (counterexample): with a fresh breaker (threshold 5),
`retries = 1`, no fallbacks and an operation that always rejects with
`401 unauthorized` — classified `AUTHENTICATION_ERROR`, non-retryable —
the primary is attempted *twice*: the non-retryable classification does
not stop the retry loop, contradicting "immediately proceeds to the
fallback providers without spending any further retry attempts". -/
theorem C3_counterexample :
    (executeWithFallback hFreshPair
        { provider := "p1", fallbackProviders := [], retries := 1 }
        (fun _ => .err "401 unauthorized") (fun _ => 0)).log =
      [("p1", .err "401 unauthorized"), ("p1", .err "401 unauthorized")] ∧
    (createVoiceError (.jsError "401 unauthorized") "p1" 0).retryable = false ∧
    (createVoiceError (.jsError "401 unauthorized") "p1" 0).type =
      "AUTHENTICATION_ERROR" := by
  refine ⟨by decide, by decide, by decide⟩

/-! ## Claim C6. -/

theorem routerStep_failures_ge (th cto : Nat) (b : Breaker) (e : RouterEvent)
    (hb : (b.state = .opened ∨ b.state = .halfOpen) → th ≤ b.failures) :
    ((routerStep th cto b e).state = .opened ∨
      (routerStep th cto b e).state = .halfOpen) →
    th ≤ (routerStep th cto b e).failures := by
  intro hpost
  cases e with
  | probe now =>
      rcases hs : b.state with _ | _ | _ <;>
        simp only [routerStep, checkAvail, hs] at hpost ⊢
      · exact hb (by rw [hs]; exact hpost)
      · split at hpost <;> split <;> simp_all
      · exact hb (Or.inr hs)
  | attempt now ok =>
      rcases hs : b.state with _ | _ | _ <;>
        simp only [routerStep, checkAvail, hs, if_true, if_false] at hpost ⊢ <;>
        cases ok <;>
        simp only [recordSuccessBreaker, updateCircuitBreaker, Bool.false_eq_true,
          if_false, if_true] at hpost ⊢ <;>
        split_ifs at hpost ⊢ <;>
        simp_all [recordSuccessBreaker, updateCircuitBreaker] <;>
        omega

theorem runBreaker_failures_ge (th cto : Nat) (evs : List RouterEvent) :
    ∀ b : Breaker,
      ((b.state = .opened ∨ b.state = .halfOpen) → th ≤ b.failures) →
      ((runBreaker th cto b evs).state = .opened ∨
        (runBreaker th cto b evs).state = .halfOpen) →
      th ≤ (runBreaker th cto b evs).failures := by
  induction evs with
  | nil => intro b hb; exact hb
  | cons e rest ih =>
      intro b hb
      exact ih (routerStep th cto b e) (routerStep_failures_ge th cto b e hb)

/-- Claim C6: the circuit breaker preserves its invariants — (i) a recorded
failure that brings the consecutive-failure count to the threshold while
the breaker is `CLOSED` moves it to `OPEN` and stamps the failure time and
the cooldown expiry `now + cbTimeout`; (ii) every recorded success resets
the count to `0` and closes a `HALF_OPEN` breaker; (iii) in every state
reachable from the initial breaker through availability-checked router
events, `state = OPEN` implies `failures ≥ threshold`. -/
theorem C6_breaker_invariants (th cto : Nat) :
    (∀ (b : Breaker) (now : Nat), b.state = .closed → th ≤ b.failures + 1 →
      (updateCircuitBreaker now th cto b).state = .opened ∧
      (updateCircuitBreaker now th cto b).lastFailureTime = some now ∧
      (updateCircuitBreaker now th cto b).nextAttemptTime =
        some (now + cto)) ∧
    (∀ b : Breaker, (recordSuccessBreaker b).failures = 0 ∧
      (b.state = .halfOpen → (recordSuccessBreaker b).state = .closed)) ∧
    (∀ evs : List RouterEvent,
      (runBreaker th cto initialBreaker evs).state = .opened →
      th ≤ (runBreaker th cto initialBreaker evs).failures) := by
  refine ⟨?_, ?_, ?_⟩
  · intro b now hs hf
    simp only [updateCircuitBreaker]
    rw [if_pos ⟨hf, hs⟩]
    exact ⟨rfl, rfl, rfl⟩
  · intro b
    constructor
    · simp only [recordSuccessBreaker]
      split <;> rfl
    · intro hs
      simp [recordSuccessBreaker, hs]
  · intro evs hopen
    exact runBreaker_failures_ge th cto evs initialBreaker
      (fun hcon => by simp [initialBreaker] at hcon) (Or.inl hopen)

/-- Claim C6 (witness): threshold 5, cooldown 30000 — the fifth failure
from `CLOSED` opens the breaker with the cooldown stamped; a success in
`HALF_OPEN` closes it; after five checked failing attempts from the
initial breaker the state is `OPEN` with at least five failures. -/
theorem C6_breaker_invariants_witness :
    (updateCircuitBreaker 7 5 30000
      { state := .closed, failures := 4, lastFailureTime := none,
        nextAttemptTime := none }).state = .opened ∧
    (updateCircuitBreaker 7 5 30000
      { state := .closed, failures := 4, lastFailureTime := none,
        nextAttemptTime := none }).nextAttemptTime = some 30007 ∧
    (recordSuccessBreaker halfOpenBreaker5).state = .closed ∧
    (runBreaker 5 30000 initialBreaker evsFiveFails).state = .opened ∧
    5 ≤ (runBreaker 5 30000 initialBreaker evsFiveFails).failures := by
  obtain ⟨h1, h2, h3⟩ := C6_breaker_invariants 5 30000
  obtain ⟨ha, _, hc⟩ := h1
    { state := .closed, failures := 4, lastFailureTime := none,
      nextAttemptTime := none } 7 rfl (by decide)
  exact ⟨ha, hc, (h2 halfOpenBreaker5).2 rfl, by decide,
    h3 evsFiveFails (by decide)⟩

/-! ## Claim C7. -/

/-- Claim C7: while a breaker is `OPEN` and the cooldown has not elapsed,
the availability check denies without mutating, a checked attempt event is
a no-op (the router never attempts the provider — in particular
`executeWithFallback` with such a primary makes no invocation at all);
once the cooldown elapses the check grants exactly and moves the breaker
to `HALF_OPEN`; in `HALF_OPEN` the single trial transitions the breaker
out of `HALF_OPEN`: back to `OPEN` with a fresh cooldown expiry on
failure, or to `CLOSED` on success. -/
theorem C7_breaker_temporal :
    (∀ (b : Breaker) (now : Nat), b.state = .opened →
      now < b.nextAttemptTime.getD 0 →
      checkAvail now b = (false, b) ∧
      ∀ th cto ok, routerStep th cto b (.attempt now ok) = b) ∧
    (∀ (b : Breaker) (now : Nat), b.state = .opened →
      b.nextAttemptTime.getD 0 ≤ now →
      (checkAvail now b).1 = true ∧ (checkAvail now b).2.state = .halfOpen) ∧
    (∀ (b : Breaker) (now th cto : Nat), b.state = .halfOpen →
      (routerStep th cto b (.attempt now false)).state = .opened ∧
      (routerStep th cto b (.attempt now false)).nextAttemptTime =
        some (now + cto) ∧
      (routerStep th cto b (.attempt now true)).state = .closed) ∧
    (∀ (hh : Handler) (cfg : RouterConfig) (script : Nat → Outcome)
      (tf : Nat → Nat) (b : Breaker),
      getAssoc hh.breakers cfg.provider = some b → b.state = .opened →
      tf 0 < b.nextAttemptTime.getD 0 →
      (executeWithFallback hh cfg script tf).log = [] ∧
      (executeWithFallback hh cfg script tf).result =
        .unavailable
          { message := "Provider " ++ cfg.provider ++
              " is currently unavailable (circuit breaker open)",
            type := "PROVIDER_UNAVAILABLE",
            meta := { provider := some cfg.provider,
                      circuitBreaker := true } }) := by
  have hdenied : ∀ (b : Breaker) (now : Nat), b.state = .opened →
      now < b.nextAttemptTime.getD 0 → checkAvail now b = (false, b) := by
    intro b now hs hlt
    simp only [checkAvail, hs]
    rw [if_neg (by omega)]
  refine ⟨?_, ?_, ?_, ?_⟩
  · intro b now hs hlt
    refine ⟨hdenied b now hs hlt, ?_⟩
    intro th cto ok
    simp only [routerStep, hdenied b now hs hlt]
    simp
  · intro b now hs hle
    simp only [checkAvail, hs]
    rw [if_pos hle]
    exact ⟨rfl, rfl⟩
  · intro b now th cto hs
    refine ⟨?_, ?_, ?_⟩ <;>
      simp [routerStep, checkAvail, updateCircuitBreaker,
        recordSuccessBreaker, hs]
  · intro hh cfg script tf b hg hs hlt
    have hav : (checkAvailH (tf 0) cfg.provider hh).1 = false := by
      simp only [checkAvailH, hg, hs]
      rw [if_neg (by omega)]
    rw [executeWithFallback_of_unavailable hh cfg script tf hav]
    exact ⟨rfl, rfl⟩

/-- Claim C7 (witness): the `OPEN` breaker with cooldown expiry 1000 —
denied at time 500 (attempt event a no-op), granted into `HALF_OPEN` at
time 2000; the `HALF_OPEN` breaker's failing trial reopens with expiry
32000 and its successful trial closes; Scenario B's router call makes no
invocation. -/
theorem C7_breaker_temporal_witness :
    checkAvail 500 openBreaker5 = (false, openBreaker5) ∧
    routerStep 5 30000 openBreaker5 (.attempt 500 false) = openBreaker5 ∧
    (checkAvail 2000 openBreaker5).1 = true ∧
    (checkAvail 2000 openBreaker5).2.state = .halfOpen ∧
    (routerStep 5 30000 halfOpenBreaker5 (.attempt 2000 false)).state =
      .opened ∧
    (routerStep 5 30000 halfOpenBreaker5
      (.attempt 2000 false)).nextAttemptTime = some 32000 ∧
    (routerStep 5 30000 halfOpenBreaker5 (.attempt 2000 true)).state =
      .closed ∧
    (executeWithFallback hScenarioB cfgScenarioB (fun _ => .ok 42)
      (fun _ => 0)).log = [] := by
  obtain ⟨h1, h2, h3, h4⟩ := C7_breaker_temporal
  obtain ⟨ha, hb⟩ := h1 openBreaker5 500 rfl (by decide)
  obtain ⟨hc, hd⟩ := h2 openBreaker5 2000 rfl (by decide)
  obtain ⟨he, hf, hg⟩ := h3 halfOpenBreaker5 2000 5 30000 rfl
  exact ⟨ha, hb 5 30000 false, hc, hd, he, hf, hg,
    (h4 hScenarioB cfgScenarioB (fun _ => .ok 42) (fun _ => 0) openBreaker5
      (by decide) rfl (by decide)).1⟩

/-! ## Claim C3 (amended): classification-independence of the retry loop. -/

theorem checkAvailH_parallel (now : Nat) (p : String) (h1 h2 : Handler)
    (hb : h1.breakers = h2.breakers) :
    (checkAvailH now p h1).1 = (checkAvailH now p h2).1 ∧
    (checkAvailH now p h1).2.breakers = (checkAvailH now p h2).2.breakers := by
  unfold checkAvailH
  rw [hb]
  split
  · exact ⟨rfl, hb⟩
  · split
    · exact ⟨rfl, hb⟩
    · split
      · exact ⟨rfl, by simp [updateBreakerAt, hb]⟩
      · exact ⟨rfl, hb⟩
    · exact ⟨rfl, hb⟩

theorem primAux_fail_parallel (th cto tmo : Nat) (p : String)
    (s1 s2 : Nat → Outcome) (tf : Nat → Nat)
    (hs1 : ∀ k, (s1 k).isOk = false) (hs2 : ∀ k, (s2 k).isOk = false) :
    ∀ (r attempt k t : Nat) (h1 h2 : Handler) (le1 le2 : Option VoiceError)
      (log1 log2 : List (String × Outcome)),
      h1.breakers = h2.breakers → log1.length = log2.length →
      ∃ hd1 le1' a lg1 k' t' hd2 le2' lg2,
        primAux th cto tmo p s1 tf r attempt k t h1 le1 log1 =
          .failed hd1 le1' a lg1 k' t' ∧
        primAux th cto tmo p s2 tf r attempt k t h2 le2 log2 =
          .failed hd2 le2' a lg2 k' t' ∧
        hd1.breakers = hd2.breakers ∧ lg1.length = lg2.length := by
  intro r
  induction r with
  | zero =>
      intro attempt k t h1 h2 le1 le2 log1 log2 hb hl
      exact ⟨h1, le1, attempt, log1, k, t, h2, le2, log2, rfl, rfl, hb, hl⟩
  | succ r ih =>
      intro attempt k t h1 h2 le1 le2 log1 log2 hb hl
      have e1 := primAux_succ_fail th cto tmo p s1 tf r attempt k t h1 le1
        log1 (s1 k) rfl (hs1 k)
      have e2 := primAux_succ_fail th cto tmo p s2 tf r attempt k t h2 le2
        log2 (s2 k) rfl (hs2 k)
      have hbb : (afterFailure th cto (tf t) p
          (createVoiceError ((s1 k).toRaw tmo) p attempt) h1).breakers =
          (afterFailure th cto (tf t) p
            (createVoiceError ((s2 k).toRaw tmo) p attempt) h2).breakers := by
        simp [afterFailure, updateBreakerAt, updateStatsAt, hb]
      obtain ⟨hcheq, hch2⟩ := checkAvailH_parallel (tf t) p _ _ hbb
      by_cases hav : (checkAvailH (tf t) p (afterFailure th cto (tf t) p
          (createVoiceError ((s1 k).toRaw tmo) p attempt) h1)).1
      · rw [e1, if_pos hav, e2, if_pos (by rw [← hcheq]; exact hav)]
        exact ih (attempt + 1) (k + 1) (t + 1) _ _ _ _ _ _ hch2 (by simp [hl])
      · rw [e1, if_neg hav, e2,
          if_neg (by rw [← hcheq]; exact hav)]
        exact ⟨_, _, attempt, _, k + 1, t + 1, _, _, _, rfl, rfl, hch2,
          by simp [hl]⟩

theorem fbAux_fail_parallel (th cto tmo : Nat) (s1 s2 : Nat → Outcome)
    (tf : Nat → Nat)
    (hs1 : ∀ k, (s1 k).isOk = false) (hs2 : ∀ k, (s2 k).isOk = false) :
    ∀ (fbs : List String) (k t : Nat) (h1 h2 : Handler)
      (log1 log2 : List (String × Outcome)),
      h1.breakers = h2.breakers → log1.length = log2.length →
      (fbAux th cto tmo s1 tf fbs k t h1 log1).1.breakers =
        (fbAux th cto tmo s2 tf fbs k t h2 log2).1.breakers ∧
      (fbAux th cto tmo s1 tf fbs k t h1 log1).2.1 = none ∧
      (fbAux th cto tmo s2 tf fbs k t h2 log2).2.1 = none ∧
      (fbAux th cto tmo s1 tf fbs k t h1 log1).2.2.length =
        (fbAux th cto tmo s2 tf fbs k t h2 log2).2.2.length := by
  intro fbs
  induction fbs with
  | nil =>
      intro k t h1 h2 log1 log2 hb hl
      exact ⟨hb, rfl, rfl, hl⟩
  | cons fb rest ih =>
      intro k t h1 h2 log1 log2 hb hl
      obtain ⟨hcheq, hch2⟩ := checkAvailH_parallel (tf t) fb h1 h2 hb
      by_cases hav : (checkAvailH (tf t) fb h1).1
      · rw [fbAux_cons_fail th cto tmo s1 tf fb rest k t h1 log1 (s1 k) rfl
            (hs1 k) hav,
          fbAux_cons_fail th cto tmo s2 tf fb rest k t h2 log2 (s2 k) rfl
            (hs2 k) (by rw [← hcheq]; exact hav)]
        exact ih (k + 1) (t + 1) _ _ _ _
          (by simp [updateBreakerAt, updateStatsAt, hch2]) (by simp [hl])
      · rw [fbAux_cons_skip th cto tmo s1 tf fb rest k t h1 log1
            (by simpa using hav),
          fbAux_cons_skip th cto tmo s2 tf fb rest k t h2 log2
            (by rw [← hcheq]; simpa using hav)]
        exact ih k (t + 1) _ _ _ _ hch2 hl

/-- Claim C3 (amended): the retry loop never consults the error's
retryability classification — for any two operation scripts that fail on
every invocation, `executeWithFallback` performs exactly the same number
of attempts and leaves identical breaker states, regardless of whether
the failures classify as non-retryable (e.g. `AUTHENTICATION_ERROR` from
`401 unauthorized`) or retryable (e.g. `SERVER_ERROR` from a 500): a
non-retryable error on the primary does *not* cause immediate fallback —
the loop exits early only when the provider's breaker reports
unavailable. -/
theorem C3_amended_no_fail_fast (h : Handler) (cfg : RouterConfig)
    (s1 s2 : Nat → Outcome) (tf : Nat → Nat)
    (hs1 : ∀ k, (s1 k).isOk = false) (hs2 : ∀ k, (s2 k).isOk = false) :
    (executeWithFallback h cfg s1 tf).log.length =
      (executeWithFallback h cfg s2 tf).log.length ∧
    (executeWithFallback h cfg s1 tf).handler.breakers =
      (executeWithFallback h cfg s2 tf).handler.breakers := by
  by_cases hav : (checkAvailH (tf 0) cfg.provider h).1
  · obtain ⟨hd1, le1', a, lg1, k', t', hd2, le2', lg2, e1, e2, hbb, hll⟩ :=
      primAux_fail_parallel h.threshold h.cbTimeout cfg.timeoutMs
        cfg.provider s1 s2 tf hs1 hs2 (cfg.retries + 1) 0 0 1
        (checkAvailH (tf 0) cfg.provider h).2
        (checkAvailH (tf 0) cfg.provider h).2 none none [] [] rfl rfl
    have r1 := executeWithFallback_of_failed h cfg s1 tf hd1 le1' a lg1 k' t'
      hav e1
    have r2 := executeWithFallback_of_failed h cfg s2 tf hd2 le2' a lg2 k' t'
      hav e2
    obtain ⟨fb1, fn1, fn2, fl⟩ := fbAux_fail_parallel h.threshold h.cbTimeout
      cfg.timeoutMs s1 s2 tf hs1 hs2 cfg.fallbackProviders k' t' hd1 hd2 lg1
      lg2 hbb hll
    rcases hfb1 : fbAux h.threshold h.cbTimeout cfg.timeoutMs s1 tf
      cfg.fallbackProviders k' t' hd1 lg1 with ⟨fh1, fo1, flog1⟩
    rcases hfb2 : fbAux h.threshold h.cbTimeout cfg.timeoutMs s2 tf
      cfg.fallbackProviders k' t' hd2 lg2 with ⟨fh2, fo2, flog2⟩
    rw [hfb1] at r1 fb1 fn1 fl
    rw [hfb2] at r2 fb1 fn2 fl
    simp only at fn1 fn2
    rw [fn1] at r1
    rw [fn2] at r2
    rw [r1, r2]
    exact ⟨by simpa using fl, by simpa using fb1⟩
  · rw [executeWithFallback_of_unavailable h cfg s1 tf (by simpa using hav),
      executeWithFallback_of_unavailable h cfg s2 tf (by simpa using hav)]
    exact ⟨rfl, rfl⟩

/-- Claim C3 (witness for the amended theorem): a script that always
rejects with the non-retryable `401 unauthorized` and one that always
rejects with the retryable `500 oops` produce the same number of attempts
and the same breaker states. -/
theorem C3_amended_witness :
    (executeWithFallback hFreshPair
        { provider := "p1", fallbackProviders := [], retries := 1 }
        (fun _ => .err "401 unauthorized") (fun _ => 0)).log.length =
      (executeWithFallback hFreshPair
        { provider := "p1", fallbackProviders := [], retries := 1 }
        (fun _ => .err "500 oops") (fun _ => 0)).log.length ∧
    (executeWithFallback hFreshPair
        { provider := "p1", fallbackProviders := [], retries := 1 }
        (fun _ => .err "401 unauthorized") (fun _ => 0)).handler.breakers =
      (executeWithFallback hFreshPair
        { provider := "p1", fallbackProviders := [], retries := 1 }
        (fun _ => .err "500 oops") (fun _ => 0)).handler.breakers :=
  C3_amended_no_fail_fast hFreshPair
    { provider := "p1", fallbackProviders := [], retries := 1 }
    (fun _ => .err "401 unauthorized") (fun _ => .err "500 oops")
    (fun _ => 0) (fun _ => rfl) (fun _ => rfl)

/-! ## Claim C5: audio round-trip integrity. -/

theorem charToSextet_sextetToChar :
    ∀ n : Nat, n < 64 → charToSextet (sextetToChar n) = some n := by decide

theorem nodeB64Sextets_cons_of_valid {c : Char} {v : Nat}
    (h : charToSextet c = some v) (cs : List Char) :
    nodeB64Sextets (c :: cs) = v :: nodeB64Sextets cs := by
  simp [nodeB64Sextets, h]

theorem nodeB64Sextets_pad (cs : List Char) :
    nodeB64Sextets ('=' :: cs) = [] := rfl

theorem sextets_decode_encode :
    ∀ bytes : List Nat, (∀ b ∈ bytes, b < 256) →
      sextetsToBytes (nodeB64Sextets (b64EncodeChunks bytes)) = bytes
  | [], _ => rfl
  | [b1], hb => by
      have h1 : b1 < 256 := hb b1 (by simp)
      show sextetsToBytes (nodeB64Sextets (sextetToChar (b1 / 4) ::
        sextetToChar (b1 % 4 * 16) :: '=' :: ['='])) = [b1]
      rw [nodeB64Sextets_cons_of_valid
        (charToSextet_sextetToChar _ (by omega))]
      rw [nodeB64Sextets_cons_of_valid
        (charToSextet_sextetToChar _ (by omega))]
      rw [nodeB64Sextets_pad]
      simp only [sextetsToBytes, List.cons.injEq]
      exact ⟨by omega, trivial⟩
  | [b1, b2], hb => by
      have h1 : b1 < 256 := hb b1 (by simp)
      have h2 : b2 < 256 := hb b2 (by simp)
      show sextetsToBytes (nodeB64Sextets (sextetToChar (b1 / 4) ::
        sextetToChar (b1 % 4 * 16 + b2 / 16) ::
        sextetToChar (b2 % 16 * 4) :: ['='])) = [b1, b2]
      rw [nodeB64Sextets_cons_of_valid
        (charToSextet_sextetToChar _ (by omega))]
      rw [nodeB64Sextets_cons_of_valid
        (charToSextet_sextetToChar _ (by omega))]
      rw [nodeB64Sextets_cons_of_valid
        (charToSextet_sextetToChar _ (by omega))]
      rw [nodeB64Sextets_pad]
      simp only [sextetsToBytes, List.cons.injEq]
      exact ⟨by omega, by omega, trivial⟩
  | b1 :: b2 :: b3 :: rest, hb => by
      have h1 : b1 < 256 := hb b1 (by simp)
      have h2 : b2 < 256 := hb b2 (by simp)
      have h3 : b3 < 256 := hb b3 (by simp)
      have hrest : ∀ b ∈ rest, b < 256 := fun b hbm => hb b (by simp [hbm])
      show sextetsToBytes (nodeB64Sextets (sextetToChar (b1 / 4) ::
        sextetToChar (b1 % 4 * 16 + b2 / 16) ::
        sextetToChar (b2 % 16 * 4 + b3 / 64) :: sextetToChar (b3 % 64) ::
        b64EncodeChunks rest)) = b1 :: b2 :: b3 :: rest
      rw [nodeB64Sextets_cons_of_valid
        (charToSextet_sextetToChar _ (by omega))]
      rw [nodeB64Sextets_cons_of_valid
        (charToSextet_sextetToChar _ (by omega))]
      rw [nodeB64Sextets_cons_of_valid
        (charToSextet_sextetToChar _ (by omega))]
      rw [nodeB64Sextets_cons_of_valid
        (charToSextet_sextetToChar _ (by omega))]
      simp only [sextetsToBytes, List.cons.injEq]
      exact ⟨by omega, by omega, by omega,
        sextets_decode_encode rest hrest⟩

theorem sampleToU16_lt (s : Int) : sampleToU16 s < 65536 := by
  unfold sampleToU16
  have h0 : 0 ≤ s.emod 65536 := Int.emod_nonneg s (by norm_num)
  have h1 : s.emod 65536 < 65536 := Int.emod_lt_of_pos s (by norm_num)
  omega

theorem sampleToBytes_lt (s : Int) : ∀ b ∈ sampleToBytes s, b < 256 := by
  intro b hbm
  have := sampleToU16_lt s
  simp only [sampleToBytes, List.mem_cons, List.not_mem_nil, or_false]
    at hbm
  rcases hbm with rfl | rfl
  · omega
  · omega

theorem flatten_sample_bytes_lt (S : List Int) :
    ∀ b ∈ (S.map sampleToBytes).flatten, b < 256 := by
  intro b hbm
  rw [List.mem_flatten] at hbm
  obtain ⟨l, hl, hbl⟩ := hbm
  rw [List.mem_map] at hl
  obtain ⟨x, _, rfl⟩ := hl
  exact sampleToBytes_lt x b hbl

theorem u16_roundtrip (s : Int) (h1 : -32768 ≤ s) (h2 : s < 32768) :
    u16ToInt16 (sampleToU16 s) = s := by
  unfold u16ToInt16 sampleToU16
  have h3 : 0 ≤ s.emod 65536 := Int.emod_nonneg s (by norm_num)
  have h4 : s.emod 65536 < 65536 := Int.emod_lt_of_pos s (by norm_num)
  have h5 : s.emod 65536 = s - 65536 * (s / 65536) := Int.emod_def s 65536
  split <;> omega

theorem samples_roundtrip :
    ∀ S : List Int, (∀ x ∈ S, -32768 ≤ x ∧ x < 32768) →
      bytesToSamplesOpt ((S.map sampleToBytes).flatten) = some S
  | [], _ => rfl
  | s :: rest, hS => by
      have hs := hS s (by simp)
      have hrest : ∀ x ∈ rest, -32768 ≤ x ∧ x < 32768 :=
        fun x hx => hS x (by simp [hx])
      show bytesToSamplesOpt ((sampleToU16 s % 256) ::
        (sampleToU16 s / 256) :: (rest.map sampleToBytes).flatten) =
        some (s :: rest)
      simp only [bytesToSamplesOpt]
      rw [samples_roundtrip rest hrest]
      have hu : sampleToU16 s % 256 + 256 * (sampleToU16 s / 256) =
          sampleToU16 s := Nat.mod_add_div _ _
      simp only [Option.map_some']
      rw [hu, u16_roundtrip s hs.1 hs.2]

theorem flatten_sample_bytes_length (S : List Int) :
    ((S.map sampleToBytes).flatten).length = 2 * S.length := by
  induction S with
  | nil => rfl
  | cons s rest ih =>
      show (sampleToBytes s ++ (rest.map sampleToBytes).flatten).length =
        2 * (rest.length + 1)
      simp [sampleToBytes, ih]
      omega

/-- Claim C5 (counterexample): `S = [1, -2]` encodes to `"AQD+/w=="` and
the claimed split `["AQD", "+/w=="]` joins back to it, but the audio-done
conversion at this size does not read the 4 decoded bytes: the `Buffer` is
pooled and `new Int16Array(audioData.buffer)` views the whole 8192-byte
pool, so the session emits the 4096-sample pool view — here an all-zero
pool — which is not `[1, -2]`.  The sample-level round trip fails on the
program for every payload under 4096 bytes. -/
theorem C5_counterexample :
    String.join ["AQD", "+/w=="] = int16ArrayToB64 [1, -2] ∧
    handleOpenAIMessage (List.replicate 4096 0)
        { isConnectedToOpenAI := true, openaiWsOpen := true,
          clientWsOpen := true, audioBuffer := ["AQD", "+/w=="] }
        .audioDone =
      ({ isConnectedToOpenAI := true, openaiWsOpen := true,
         clientWsOpen := true, audioBuffer := [] },
       [.audioOutput (List.replicate 4096 0)]) ∧
    List.replicate 4096 (0 : Int) ≠ [1, -2] := by
  refine ⟨by decide, rfl, ?_⟩
  intro h
  have hlen := congrArg List.length h
  simp only [List.length_replicate, List.length_cons, List.length_nil]
    at hlen
  omega

/-- Claim C5 (amended): the round trip is exact at the *byte* level — for
every in-range even-length sample array `S` and every way of splitting its
`audio_input` encoding into fragments, Node's base64 decode of the
concatenated fragments is exactly the little-endian byte stream of `S`,
with no loss or reordering.  The audio-done `Int16Array` view on top of
it reconstructs `S` itself only when the payload escapes Node's buffer
pool (2048 samples, i.e. 4096 bytes, or more); below that the view is the
4096-sample pool content, independent of `S`. -/
theorem C5_amended_byte_round_trip (S : List Int) (frags : List String)
    (hS : ∀ x ∈ S, -32768 ≤ x ∧ x < 32768)
    (_heven : S.length % 2 = 0)
    (hjoin : String.join frags = int16ArrayToB64 S) :
    nodeB64Decode (String.join frags) = (S.map sampleToBytes).flatten ∧
    (2048 ≤ S.length → ∀ pool : List Int,
      int16ViewOfBuffer pool (nodeB64Decode (String.join frags)) =
        some S) ∧
    (S.length < 2048 → ∀ pool : List Int,
      int16ViewOfBuffer pool (nodeB64Decode (String.join frags)) =
        some pool) := by
  have hbytes : nodeB64Decode (String.join frags) =
      (S.map sampleToBytes).flatten := by
    rw [hjoin]
    show sextetsToBytes (nodeB64Sextets
      (b64EncodeChunks ((S.map sampleToBytes).flatten))) = _
    exact sextets_decode_encode _ (flatten_sample_bytes_lt S)
  have hlen := flatten_sample_bytes_length S
  refine ⟨hbytes, ?_, ?_⟩
  · intro hge pool
    rw [hbytes]
    unfold int16ViewOfBuffer bufferPoolHalf
    rw [if_neg (by omega)]
    exact samples_roundtrip S hS
  · intro hlt pool
    rw [hbytes]
    unfold int16ViewOfBuffer bufferPoolHalf
    rw [if_pos (by omega)]

/-- Claim C5 (witness for the amended theorem): `S = [1, -2]` with the
split `["AQD", "+/w=="]` — the decoded bytes are exactly the little-endian
byte stream `[1, 0, 254, 255]` of `S`, and at this size the `Int16Array`
view returns the pool content (here a one-element stand-in) rather than
`S`. -/
theorem C5_amended_witness :
    nodeB64Decode (String.join ["AQD", "+/w=="]) =
      (([1, -2] : List Int).map sampleToBytes).flatten ∧
    int16ViewOfBuffer [7] (nodeB64Decode (String.join ["AQD", "+/w=="])) =
      some [7] := by
  have h := C5_amended_byte_round_trip [1, -2] ["AQD", "+/w=="]
    (by decide) (by decide) (by decide)
  exact ⟨h.1, h.2.2 (by decide) [7]⟩

/-! ## Claim C10: statistics double-count successful attempts. -/

theorem getAssoc_updateStatsAt_self (h : Handler) (p : String)
    (f : Stats → Stats) :
    getAssoc (updateStatsAt h p f).stats p = (getAssoc h.stats p).map f := by
  simp [updateStatsAt, getAssoc_mapAssoc_self]

theorem primStatsSpec_zero (th cto tmo : Nat) (p : String)
    (script : Nat → Outcome) (tf : Nat → Nat) (attempt k t : Nat)
    (h : Handler) (le : Option VoiceError) (log : List (String × Outcome)) :
    PrimStatsSpec th cto tmo p script tf 0 attempt k t h le log := by
  intro s0 hs0
  rw [primAux_zero]
  exact ⟨[], s0, by simp, by simpa using hs0, by simp [okCount, errCount],
    by simp [errCount], fun _ => rfl, fun hc => absurd rfl hc⟩

theorem primStatsSpec_fail_step (th cto tmo : Nat) (p : String)
    (script : Nat → Outcome) (tf : Nat → Nat) (r attempt k t : Nat)
    (h : Handler) (le : Option VoiceError) (log : List (String × Outcome))
    (o : Outcome) (hk : script k = o) (ho : o.isOk = false)
    (ih : ∀ (attempt k t : Nat) (h : Handler) (le : Option VoiceError)
      (log : List (String × Outcome)),
      PrimStatsSpec th cto tmo p script tf r attempt k t h le log) :
    PrimStatsSpec th cto tmo p script tf (r + 1) attempt k t h le log := by
  intro s0 hs0
  rw [primAux_succ_fail th cto tmo p script tf r attempt k t h le log o hk ho]
  have hstats1 : getAssoc (checkAvailH (tf t) p (afterFailure th cto (tf t) p
      (createVoiceError (o.toRaw tmo) p attempt) h)).2.stats p =
      some (recordErrorStats (createVoiceError (o.toRaw tmo) p attempt)
        (recordRequest s0)) := by
    rw [checkAvailH_stats]
    simp [afterFailure, updateBreakerAt, updateStatsAt,
      getAssoc_mapAssoc_self, hs0]
  by_cases hav : (checkAvailH (tf t) p (afterFailure th cto (tf t) p
      (createVoiceError (o.toRaw tmo) p attempt) h)).1
  · rw [if_pos hav]
    obtain ⟨nw', s1, h1, h2, h3, h4, h5, h6⟩ := ih (attempt + 1) (k + 1)
      (t + 1) (checkAvailH (tf t) p (afterFailure th cto (tf t) p
        (createVoiceError (o.toRaw tmo) p attempt) h)).2
      (some (createVoiceError (o.toRaw tmo) p attempt)) (log ++ [(p, o)])
      (recordErrorStats (createVoiceError (o.toRaw tmo) p attempt)
        (recordRequest s0)) hstats1
    refine ⟨(p, o) :: nw', s1, by rw [h1]; simp, h2, ?_, ?_, by simp,
      fun _ => ?_⟩
    · simp only [recordErrorStats, recordRequest] at h3
      simp only [okCount, errCount, List.countP_cons, ho] at h3 ⊢
      simp at h3 ⊢
      omega
    · simp only [recordErrorStats, recordRequest] at h4
      simp only [okCount, errCount, List.countP_cons, ho] at h4 ⊢
      simp at h4 ⊢
      omega
    · cases hnw' : nw' with
      | nil =>
          rw [h5 hnw']
          simp [recordErrorStats, recordRequest]
      | cons y ys => exact h6 (by simp [hnw'])
  · rw [if_neg hav]
    refine ⟨[(p, o)], recordErrorStats (createVoiceError (o.toRaw tmo) p
      attempt) (recordRequest s0), by simp, by simpa using hstats1, ?_, ?_,
      by simp, fun _ => ?_⟩
    · simp only [okCount, errCount, List.countP_cons, ho]
      simp [recordErrorStats, recordRequest]
    · simp only [okCount, errCount, List.countP_cons, ho]
      simp [recordErrorStats, recordRequest]
    · simp [recordErrorStats, recordRequest]

theorem primStatsSpec_all (th cto tmo : Nat) (p : String)
    (script : Nat → Outcome) (tf : Nat → Nat) :
    ∀ (r attempt k t : Nat) (h : Handler) (le : Option VoiceError)
      (log : List (String × Outcome)),
      PrimStatsSpec th cto tmo p script tf r attempt k t h le log := by
  intro r
  induction r with
  | zero => exact primStatsSpec_zero th cto tmo p script tf
  | succ r ih =>
      intro attempt k t h le log
      cases hk : script k with
      | ok v =>
          intro s0 hs0
          rw [primAux_succ_ok th cto tmo p script tf r attempt k t h le log
            v hk]
          refine ⟨[(p, .ok v)],
            recordSuccessStats ((tf t : Rat) - (tf 0 : Rat))
              (recordRequest s0), by simp, ?_, ?_, ?_, by simp, fun _ => ?_⟩
          · simp [updateStatsAt, updateBreakerAt, getAssoc_mapAssoc_self,
              hs0]
          · simp only [okCount, errCount, List.countP_cons, Outcome.isOk]
            simp [recordSuccessStats, recordRequest]
          · simp only [okCount, errCount, List.countP_cons, Outcome.isOk]
            simp [recordSuccessStats, recordRequest]
          · simp [recordSuccessStats, recordRequest]
      | err m =>
          exact primStatsSpec_fail_step th cto tmo p script tf r attempt k t
            h le log (.err m) hk rfl ih
      | timeout =>
          exact primStatsSpec_fail_step th cto tmo p script tf r attempt k t
            h le log .timeout hk rfl ih

/-- Claim C10: the statistics double-count successful attempts — every
attempt inside `executeWithFallback` increments the attempted provider's
`totalRequests` once via `recordRequest` before the operation runs, and a
successful attempt increments it a second time inside `recordSuccess`;
consequently, for a call with no fallbacks whose log contains `R`
successful and `E` failed attempts, the primary's `totalRequests` grows by
`2R + E` (not `R + E`), `totalErrors` grows by `E`, and the reported
`errorRate` is `totalErrors / totalRequests` over those counters. -/
theorem C10_stats_double_count :
    (∀ s : Stats, (recordRequest s).totalRequests = s.totalRequests + 1) ∧
    (∀ (rt : Rat) (s : Stats),
      (recordSuccessStats rt s).totalRequests = s.totalRequests + 1 ∧
      (recordSuccessStats rt s).totalErrors = s.totalErrors) ∧
    (∀ (e : VoiceError) (s : Stats),
      (recordErrorStats e s).totalRequests = s.totalRequests ∧
      (recordErrorStats e s).totalErrors = s.totalErrors + 1) ∧
    (∀ (h : Handler) (cfg : RouterConfig) (script : Nat → Outcome)
      (tf : Nat → Nat) (s0 : Stats),
      cfg.fallbackProviders = [] →
      getAssoc h.stats cfg.provider = some s0 →
      ∃ s1, getAssoc (executeWithFallback h cfg script
          tf).handler.stats cfg.provider = some s1 ∧
        s1.totalRequests = s0.totalRequests +
          2 * okCount (executeWithFallback h cfg script tf).log +
          errCount (executeWithFallback h cfg script tf).log ∧
        s1.totalErrors = s0.totalErrors +
          errCount (executeWithFallback h cfg script tf).log ∧
        ((executeWithFallback h cfg script tf).log ≠ [] →
          s1.errorRate = (s1.totalErrors : Rat) / (s1.totalRequests : Rat))) := by
  refine ⟨fun s => rfl, fun rt s => ⟨rfl, rfl⟩, fun e s => ⟨rfl, rfl⟩, ?_⟩
  intro h cfg script tf s0 hfb hs0
  by_cases hav : (checkAvailH (tf 0) cfg.provider h).1
  · have hstats0 : getAssoc (checkAvailH (tf 0) cfg.provider h).2.stats
        cfg.provider = some s0 := by
      rw [checkAvailH_stats]
      exact hs0
    obtain ⟨nw, s1, hlog, hstats, ht, te, hnil, hrate⟩ :=
      primStatsSpec_all h.threshold h.cbTimeout cfg.timeoutMs cfg.provider
        script tf (cfg.retries + 1) 0 0 1
        (checkAvailH (tf 0) cfg.provider h).2 none [] s0 hstats0
    cases hres : primAux h.threshold h.cbTimeout cfg.timeoutMs cfg.provider
      script tf (cfg.retries + 1) 0 0 1
      (checkAvailH (tf 0) cfg.provider h).2 none [] with
    | done hd v lg =>
        rw [hres] at hlog hstats
        simp at hlog hstats
        rw [executeWithFallback_of_done h cfg script tf hd v lg hav hres]
        refine ⟨s1, hstats, ?_, ?_, ?_⟩
        · show s1.totalRequests = s0.totalRequests + 2 * okCount lg +
            errCount lg
          rw [hlog]
          exact ht
        · show s1.totalErrors = s0.totalErrors + errCount lg
          rw [hlog]
          exact te
        · intro hne
          exact hrate (by rw [← hlog]; simpa using hne)
    | failed hd le a lg k2 t2 =>
        rw [hres] at hlog hstats
        simp at hlog hstats
        have hrun := executeWithFallback_of_failed h cfg script tf hd le a lg
          k2 t2 hav hres
        rw [hfb, fbAux_nil] at hrun
        rw [hrun]
        refine ⟨s1, hstats, ?_, ?_, ?_⟩
        · show s1.totalRequests = s0.totalRequests + 2 * okCount lg +
            errCount lg
          rw [hlog]
          exact ht
        · show s1.totalErrors = s0.totalErrors + errCount lg
          rw [hlog]
          exact te
        · intro hne
          exact hrate (by rw [← hlog]; simpa using hne)
  · rw [executeWithFallback_of_unavailable h cfg script tf
      (by simpa using hav)]
    refine ⟨s0, by rw [checkAvailH_stats]; exact hs0, ?_, ?_, ?_⟩
    · simp [okCount, errCount]
    · simp [errCount]
    · intro hne
      exact absurd rfl hne

/-- Claim C10 (witness): a fresh provider, `retries = 2`, an operation that
always rejects — three failed attempts give `totalRequests = 3 = 2·0 + 3`,
`totalErrors = 3` and `errorRate = 3/3`; and a fresh provider with an
immediately succeeding operation gives `totalRequests = 2 = 2·1 + 0`. -/
theorem C10_stats_double_count_witness :
    ∃ s1, getAssoc (executeWithFallback hFreshPair
        { provider := "p1", fallbackProviders := [], retries := 2 }
        (fun _ => .err "boom") (fun _ => 0)).handler.stats "p1" = some s1 ∧
      s1.totalRequests = initialStats.totalRequests +
        2 * okCount (executeWithFallback hFreshPair
          { provider := "p1", fallbackProviders := [], retries := 2 }
          (fun _ => .err "boom") (fun _ => 0)).log +
        errCount (executeWithFallback hFreshPair
          { provider := "p1", fallbackProviders := [], retries := 2 }
          (fun _ => .err "boom") (fun _ => 0)).log ∧
      s1.totalErrors = initialStats.totalErrors +
        errCount (executeWithFallback hFreshPair
          { provider := "p1", fallbackProviders := [], retries := 2 }
          (fun _ => .err "boom") (fun _ => 0)).log ∧
      ((executeWithFallback hFreshPair
          { provider := "p1", fallbackProviders := [], retries := 2 }
          (fun _ => .err "boom") (fun _ => 0)).log ≠ [] →
        s1.errorRate = (s1.totalErrors : Rat) / (s1.totalRequests : Rat)) :=
  (C10_stats_double_count.2.2.2) hFreshPair
    { provider := "p1", fallbackProviders := [], retries := 2 }
    (fun _ => .err "boom") (fun _ => 0) initialStats rfl (by decide)

end VoiceAgent
